import Mathlib

/-!
Verification of the `videohub` wire codec and session engines of the
omnimatrix repository, against a shallow embedding in Lean.

Bytes are modelled as `List Nat`.  Rust `String` payloads (produced by
`String::from_utf8_lossy`) are modelled as raw byte lists; for the ASCII
inputs appearing in all concrete statements below the two coincide.
The parser (`crates/videohub/src/parser.rs` together with the nom
combinators it instantiates from `helpers.rs`), the writer
(`writer.rs`), the codec (`codec.rs`), the client engine cache logic
(`src/backend/videohub.rs`), the server frontend
(`src/frontend/videohub.rs`) and the dummy router
(`src/matrix/dummy.rs`) are each translated function by function.
-/

/-- Result of a streaming nom parser: success with remaining input,
`Err::Incomplete`, or `Err::Error`/`Err::Failure`. -/
inductive PResult (α : Type) where
  | done (rem : List Nat) (val : α)
  | incomplete
  | error
deriving DecidableEq, Repr

/-- Monadic sequencing of parser results, mirroring nom `tuple`/`?`. -/
def PResult.bind {α β : Type} (r : PResult α) (f : List Nat → α → PResult β) : PResult β :=
  match r with
  | .done rem v => f rem v
  | .incomplete => .incomplete
  | .error => .error

/-- ASCII bytes of a string literal. -/
def bytes (s : String) : List Nat := s.data.map Char.toNat

/-- nom `multispace` set: space, tab, carriage return, line feed. -/
def isWS (c : Nat) : Bool := c = 32 || c = 9 || c = 13 || c = 10

/-- nom `space` set: space and tab. -/
def isSpTab (c : Nat) : Bool := c = 32 || c = 9

/-- ASCII decimal digit. -/
def isDigit (c : Nat) : Bool := 48 ≤ c && c ≤ 57

/-- Not a newline byte: the predicate of `take_until_newline`. -/
def notNL (c : Nat) : Bool := !(c = 13 || c = 10)

/-- Rust `u8::is_ascii_whitespace`: space, tab, line feed, form feed,
carriage return. -/
def isAsciiWS (c : Nat) : Bool := c = 32 || c = 9 || c = 10 || c = 12 || c = 13

/-- Rust `u8::to_ascii_lowercase` on one byte. -/
def lowerByte (c : Nat) : Nat := if 65 ≤ c ∧ c ≤ 90 then c + 32 else c

/-- Rust `to_ascii_lowercase` on a byte slice. -/
def lower (l : List Nat) : List Nat := l.map lowerByte

/-- Rust `u8::to_ascii_uppercase` on one byte. -/
def upperByte (c : Nat) : Nat := if 97 ≤ c ∧ c ≤ 122 then c - 32 else c

/-- Rust `to_ascii_uppercase` on a byte slice. -/
def upper (l : List Nat) : List Nat := l.map upperByte

/-- Rust `[u8]::trim_ascii_end`. -/
def trimAsciiEnd (l : List Nat) : List Nat := (l.reverse.dropWhile isAsciiWS).reverse

/-- Rust `[u8]::trim_ascii` (both ends). -/
def trimAscii (l : List Nat) : List Nat := trimAsciiEnd (l.dropWhile isAsciiWS)

/-- `character::streaming::multispace0`: skip whitespace; in streaming
mode, consuming the whole input means more whitespace may follow, so the
result is Incomplete (`none`). -/
def multispace0 (i : List Nat) : Option (List Nat) :=
  let r := i.dropWhile isWS
  if r.isEmpty then none else some r

/-- Streaming `take_while1 p`: at least one byte satisfying `p`; the run
must be terminated inside the input, otherwise Incomplete. -/
def takeWhile1S (p : Nat → Bool) (i : List Nat) : PResult (List Nat) :=
  match i with
  | [] => .incomplete
  | c :: _ =>
    if p c then
      if (i.dropWhile p).isEmpty then .incomplete
      else .done (i.dropWhile p) (i.takeWhile p)
    else .error

/-- `helpers::take_until_newline`. -/
def takeUntilNewline (i : List Nat) : PResult (List Nat) := takeWhile1S notNL i

/-- `character::streaming::space1`. -/
def space1 (i : List Nat) : PResult (List Nat) := takeWhile1S isSpTab i

/-- `helpers::any_newline`: `alt((tag "\r\n", tag "\n"))` in streaming
mode (`alt` propagates Incomplete of the first branch, so a lone `\r`
is Incomplete). -/
def anyNewline (i : List Nat) : PResult (List Nat) :=
  match i with
  | [] => .incomplete
  | c :: rest =>
    if c = 13 then
      match rest with
      | [] => .incomplete
      | d :: r => if d = 10 then .done r [13, 10] else .error
    else if c = 10 then .done rest [10]
    else .error

/-- `helpers::take_until_empty_line`: scan for the first `\n\n` or
`\r\n\r\n`; the returned head keeps the first half of the terminator and
the second half is dropped.  No terminator in sight is Incomplete. -/
def takeUntilEmptyLine (i : List Nat) : PResult (List Nat) :=
  match i with
  | [] => .incomplete
  | c :: rest =>
    if c = 10 ∧ rest.head? = some 10 then .done rest.tail [10]
    else if c = 13 ∧ rest.head? = some 10 ∧ rest.tail.head? = some 13
        ∧ rest.tail.tail.head? = some 10 then
      .done rest.tail.tail.tail [13, 10]
    else
      match takeUntilEmptyLine rest with
      | .done r h => .done r (c :: h)
      | .incomplete => .incomplete
      | .error => .error

/-- Numeric value of an ASCII digit run. -/
def digitsVal (ds : List Nat) : Nat := ds.foldl (fun a d => a * 10 + (d - 48)) 0

/-- `helpers::parse_u32`: complete `digit1` followed by a checked `u32`
conversion; overflow is an Error. -/
def parseU32 (i : List Nat) : PResult Nat :=
  if (i.takeWhile isDigit).isEmpty then .error
  else
    let n := digitsVal (i.takeWhile isDigit)
    if n < 4294967296 then .done (i.dropWhile isDigit) n else .error

/-- `bytes::streaming::take_until ":"`: everything before the first
colon, which is left in the input; no colon means Incomplete. -/
def takeUntilColon (i : List Nat) : PResult (List Nat) :=
  if (i.dropWhile (fun c => !(c = 58))).isEmpty then .incomplete
  else .done (i.dropWhile (fun c => !(c = 58))) (i.takeWhile (fun c => !(c = 58)))

/-- `bytes::streaming::tag`. -/
def tagS (t i : List Nat) : PResult (List Nat) :=
  if i.length < t.length then
    if i = t.take i.length then .incomplete else .error
  else
    if i.take t.length = t then .done (i.drop t.length) t else .error

/-- `bytes::streaming::tag_no_case`. -/
def tagNoCaseS (t i : List Nat) : PResult (List Nat) :=
  if i.length < t.length then
    if lower i = lower (t.take i.length) then .incomplete else .error
  else
    if lower (i.take t.length) = lower t then .done (i.drop t.length) (i.take t.length)
    else .error

/-- `model::Present` tri-state. -/
inductive Present where
  | Yes
  | No
  | NeedsUpdate
deriving DecidableEq, Repr

/-- `model::UnknownKVPair`. -/
structure UnknownKVPair where
  key : List Nat
  value : List Nat
deriving DecidableEq, Repr

/-- `model::DeviceInfo`. -/
structure DeviceInfo where
  present : Option Present := none
  model_name : Option (List Nat) := none
  friendly_name : Option (List Nat) := none
  unique_id : Option (List Nat) := none
  video_inputs : Option Nat := none
  video_processing_units : Option Nat := none
  video_outputs : Option Nat := none
  video_monitoring_outputs : Option Nat := none
  serial_ports : Option Nat := none
  unknown_fields : Option (List UnknownKVPair) := none
deriving DecidableEq, Repr

/-- `model::Label`. -/
structure Label where
  id : Nat
  name : List Nat
deriving DecidableEq, Repr

/-- `model::Route` (field names as used by parser and writer). -/
structure Route where
  from_input : Nat
  to_output : Nat
deriving DecidableEq, Repr

/-- `model::LockState`. -/
inductive LockState where
  | Owned
  | Locked
  | Unlocked
deriving DecidableEq, Repr

/-- `model::Lock`. -/
structure Lock where
  id : Nat
  state : LockState
deriving DecidableEq, Repr

/-- `model::HardwarePortType`. -/
inductive HardwarePortType where
  | None
  | BNC
  | Optical
  | Thunderbolt
  | RS422
  | Other (raw : List Nat)
deriving DecidableEq, Repr

/-- `model::HardwarePort`. -/
structure HardwarePort where
  id : Nat
  port_type : HardwarePortType
deriving DecidableEq, Repr

/-- `model::Alarm`. -/
structure Alarm where
  name : List Nat
  status : List Nat
deriving DecidableEq, Repr

/-- `model::Setting`. -/
structure Setting where
  setting : List Nat
  value : List Nat
deriving DecidableEq, Repr

/-- `model::VideohubMessage`; `Preamble` carries only its version text. -/
inductive VideohubMessage where
  | Preamble (version : List Nat)
  | DeviceInfo (di : DeviceInfo)
  | InputLabels (v : List Label)
  | OutputLabels (v : List Label)
  | MonitorOutputLabels (v : List Label)
  | SerialPortLabels (v : List Label)
  | FrameLabels (v : List Label)
  | VideoOutputRouting (v : List Route)
  | VideoMonitoringOutputRouting (v : List Route)
  | SerialPortRouting (v : List Route)
  | ProcessingUnitRouting (v : List Route)
  | FrameBufferRouting (v : List Route)
  | VideoOutputLocks (v : List Lock)
  | MonitoringOutputLocks (v : List Lock)
  | SerialPortLocks (v : List Lock)
  | ProcessingUnitLocks (v : List Lock)
  | FrameBufferLocks (v : List Lock)
  | VideoInputStatus (v : List HardwarePort)
  | VideoOutputStatus (v : List HardwarePort)
  | SerialPortStatus (v : List HardwarePort)
  | AlarmStatus (v : List Alarm)
  | Configuration (v : List Setting)
  | ACK
  | NAK
  | Ping
  | EndPrelude
  | UnknownMessage (header : List Nat) (body : List Nat)
deriving DecidableEq, Repr

/-- `parser::parse_kv_line`: `take_until ":"`, the colon, at least one
space, the value up to the newline; key trimmed on both ends, value
trimmed at the end. -/
def parseKVLine (i : List Nat) : PResult (List Nat × List Nat) :=
  (takeUntilColon i).bind fun i1 k =>
  (tagS [58] i1).bind fun i2 _ =>
  (space1 i2).bind fun i3 _ =>
  (takeUntilNewline i3).bind fun i4 v =>
  (anyNewline i4).bind fun i5 _ =>
  .done i5 (trimAscii k, trimAsciiEnd v)

/-- `parser::parse_preamble_body`. -/
def parsePreambleBody (i : List Nat) : PResult VideohubMessage :=
  (tagNoCaseS (bytes ("Version")) i).bind fun i1 _ =>
  (tagS [58] i1).bind fun i2 _ =>
  (takeUntilNewline i2).bind fun i3 ver =>
  (anyNewline i3).bind fun i4 _ =>
  .done i4 (.Preamble (trimAscii ver))

/-- Outcome of parsing one body line inside a `while let Ok` loop: a
parsed item, a parse failure that merely ends the loop, or a hard error
returned from the whole body parser. -/
inductive LineStep (α : Type) where
  | next (rem : List Nat) (item : α)
  | stop
  | abort

/-- The `while let Ok((i2, ..)) = line(i)` loop shared by all body
parsers, with fuel for structural recursion; every line consumes at
least the terminating newline, so `input.length + 1` fuel is exact
(see `bodyLoop_fuel_irrel`). -/
def bodyLoop {α : Type} (line : List Nat → LineStep α) :
    Nat → List Nat → List α → PResult (List α)
  | 0, i, acc => .done i acc
  | f + 1, i, acc =>
    match line i with
    | .next rem item => bodyLoop line f rem (acc ++ [item])
    | .stop => .done i acc
    | .abort => .error

/-- Run a body-line loop with sufficient fuel. -/
def runBody {α : Type} (line : List Nat → LineStep α) (i : List Nat) : PResult (List α) :=
  bodyLoop line (i.length + 1) i []

/-- One line of `parser::parse_label_body`: `<u32> <name>`; any parse
failure ends the loop. -/
def labelLine (i : List Nat) : LineStep Label :=
  match (parseU32 i).bind (fun i1 id =>
        (space1 i1).bind fun i2 _ =>
        (takeUntilNewline i2).bind fun i3 nm =>
        (anyNewline i3).bind fun i4 _ =>
        .done i4 (id, nm)) with
  | .done rem (id, nm) => .next rem ⟨id, trimAscii nm⟩
  | _ => .stop

/-- One line of `parser::parse_route_body`: `<to> <from>`. -/
def routeLine (i : List Nat) : LineStep Route :=
  match (parseU32 i).bind (fun i1 t =>
        (space1 i1).bind fun i2 _ =>
        (parseU32 i2).bind fun i3 f =>
        (anyNewline i3).bind fun i4 _ =>
        .done i4 (t, f)) with
  | .done rem (t, f) => .next rem ⟨f, t⟩
  | _ => .stop

/-- Lock state letter accepted by `parse_lock_body` (case-insensitive
O, L, U); anything else makes the body parser return an Error. -/
def lockStateOf (s : List Nat) : Option LockState :=
  if s = [79] ∨ s = [111] then some .Owned
  else if s = [76] ∨ s = [108] then some .Locked
  else if s = [85] ∨ s = [117] then some .Unlocked
  else none

/-- One line of `parser::parse_lock_body`. -/
def lockLine (i : List Nat) : LineStep Lock :=
  match (parseU32 i).bind (fun i1 id =>
        (space1 i1).bind fun i2 _ =>
        (takeUntilNewline i2).bind fun i3 s =>
        (anyNewline i3).bind fun i4 _ =>
        .done i4 (id, s)) with
  | .done rem (id, s) =>
    match lockStateOf (trimAsciiEnd s) with
    | some st => .next rem ⟨id, st⟩
    | none => .abort
  | _ => .stop

/-- Port type token of `parse_hw_body` (note the source matches the
lowercased token against `one`, not `none`). -/
def portTypeOf (tp : List Nat) : HardwarePortType :=
  if lower tp = bytes ("one") then .None
  else if lower tp = bytes ("bnc") then .BNC
  else if lower tp = bytes ("optical") then .Optical
  else if lower tp = bytes ("thunderbolt") then .Thunderbolt
  else if lower tp = bytes ("rs422") then .RS422
  else .Other tp

/-- One line of `parser::parse_hw_body`. -/
def hwLine (i : List Nat) : LineStep HardwarePort :=
  match (parseU32 i).bind (fun i1 id =>
        (space1 i1).bind fun i2 _ =>
        (takeUntilNewline i2).bind fun i3 tp =>
        (anyNewline i3).bind fun i4 _ =>
        .done i4 (id, tp)) with
  | .done rem (id, tp) => .next rem ⟨id, portTypeOf (trimAsciiEnd tp)⟩
  | _ => .stop

/-- One line of `parser::parse_kv_body`. -/
def kvLine (i : List Nat) : LineStep (List Nat × List Nat) :=
  match parseKVLine i with
  | .done rem kv => .next rem kv
  | _ => .stop

/-- The `u32` value taken from a DeviceInfo field value by
`parse_u32(v)?.1` (leading digits; the rest of the value is ignored). -/
def fieldU32 (v : List Nat) : Nat := digitsVal (v.takeWhile isDigit)

/-- Whether a DeviceInfo `Key: Value` pair parses without the body
parser returning an Error: `Device present` must be one of the three
literal tokens, and the numeric keys need a non-empty digit prefix whose
value fits in a `u32`. -/
def deviceFieldOk (k v : List Nat) : Bool :=
  if lower k = bytes ("device present") then
    v = bytes ("true") || v = bytes ("false") || v = bytes ("needs_update")
  else if lower k = bytes ("video inputs") ∨ lower k = bytes ("video processing units")
      ∨ lower k = bytes ("video outputs") ∨ lower k = bytes ("video monitoring outputs")
      ∨ lower k = bytes ("serial ports") then
    !(v.takeWhile isDigit).isEmpty && decide (fieldU32 v < 4294967296)
  else true

/-- Apply one valid DeviceInfo `Key: Value` pair; `Friendly name` is
stored in `unique_id`, exactly as the source does. -/
def applyDeviceField (di : DeviceInfo) (kv : List Nat × List Nat) : DeviceInfo :=
  let k := kv.1
  let v := kv.2
  if lower k = bytes ("device present") then
    { di with present := some (if v = bytes ("true") then .Yes
                               else if v = bytes ("false") then .No
                               else .NeedsUpdate) }
  else if lower k = bytes ("model name") then { di with model_name := some v }
  else if lower k = bytes ("friendly name") then { di with unique_id := some v }
  else if lower k = bytes ("unique id") then { di with unique_id := some v }
  else if lower k = bytes ("video inputs") then { di with video_inputs := some (fieldU32 v) }
  else if lower k = bytes ("video processing units") then
    { di with video_processing_units := some (fieldU32 v) }
  else if lower k = bytes ("video outputs") then { di with video_outputs := some (fieldU32 v) }
  else if lower k = bytes ("video monitoring outputs") then
    { di with video_monitoring_outputs := some (fieldU32 v) }
  else if lower k = bytes ("serial ports") then { di with serial_ports := some (fieldU32 v) }
  else { di with unknown_fields := some ((di.unknown_fields.getD []) ++ [⟨k, v⟩]) }

/-- One line of `parser::parse_device_body`: a `Key: Value` line; an
invalid value for a recognized key aborts the body parse with Error. -/
def deviceLine (i : List Nat) : LineStep (List Nat × List Nat) :=
  match parseKVLine i with
  | .done rem kv => if deviceFieldOk kv.1 kv.2 then .next rem kv else .abort
  | _ => .stop

/-- `parser::parse_device_body`. -/
def parseDeviceBody (i : List Nat) : PResult VideohubMessage :=
  (runBody deviceLine i).bind fun rem kvs =>
  .done rem (.DeviceInfo (kvs.foldl applyDeviceField {}))

/-- Alarm entries from parsed key/value pairs (both parts re-trimmed,
as in the `ALARM STATUS` arm). -/
def alarmOf (kv : List Nat × List Nat) : Alarm := ⟨trimAscii kv.1, trimAscii kv.2⟩

/-- Setting entries from parsed key/value pairs (`CONFIGURATION` arm). -/
def settingOf (kv : List Nat × List Nat) : Setting := ⟨trimAscii kv.1, trimAscii kv.2⟩

/-- The body of a block: `alt((any_newline, take_until_empty_line))`. -/
def bodyAlt (i : List Nat) : PResult (List Nat) :=
  match anyNewline i with
  | .done r v => .done r v
  | .incomplete => .incomplete
  | .error => takeUntilEmptyLine i

/-- Discard the body remainder of a recognized block (the source binds
`let (_, msg) = ...` and returns the input position after the block),
while propagating Incomplete and Error out of the body parser. -/
def liftBody (i3 : List Nat) (r : PResult VideohubMessage) : PResult VideohubMessage :=
  match r with
  | .done _ m => .done i3 m
  | .incomplete => .incomplete
  | .error => .error

/-- Header dispatch of `parse_single_block` on the uppercased trimmed
header: the body parser of a recognized block runs on the body (its
result pair's remainder is later discarded); single-line arms and the
unknown fallback carry their message directly.  Note that the `NAK` arm
of the source yields `ACK`. -/
def dispatchBody (sh th body : List Nat) : PResult VideohubMessage :=
  if sh = bytes ("PROTOCOL PREAMBLE:") then parsePreambleBody body
  else if sh = bytes ("VIDEOHUB DEVICE:") then parseDeviceBody body
  else if sh = bytes ("INPUT LABELS:") then
    (runBody labelLine body).bind fun r v => .done r (.InputLabels v)
  else if sh = bytes ("OUTPUT LABELS:") then
    (runBody labelLine body).bind fun r v => .done r (.OutputLabels v)
  else if sh = bytes ("MONITOR OUTPUT LABELS:") then
    (runBody labelLine body).bind fun r v => .done r (.MonitorOutputLabels v)
  else if sh = bytes ("SERIAL PORT LABELS:") then
    (runBody labelLine body).bind fun r v => .done r (.SerialPortLabels v)
  else if sh = bytes ("FRAME LABELS:") then
    (runBody labelLine body).bind fun r v => .done r (.FrameLabels v)
  else if sh = bytes ("VIDEO OUTPUT ROUTING:") then
    (runBody routeLine body).bind fun r v => .done r (.VideoOutputRouting v)
  else if sh = bytes ("VIDEO MONITORING OUTPUT ROUTING:") then
    (runBody routeLine body).bind fun r v => .done r (.VideoMonitoringOutputRouting v)
  else if sh = bytes ("SERIAL PORT ROUTING:") then
    (runBody routeLine body).bind fun r v => .done r (.SerialPortRouting v)
  else if sh = bytes ("PROCESSING UNIT ROUTING:") then
    (runBody routeLine body).bind fun r v => .done r (.ProcessingUnitRouting v)
  else if sh = bytes ("FRAME BUFFER ROUTING:") then
    (runBody routeLine body).bind fun r v => .done r (.FrameBufferRouting v)
  else if sh = bytes ("VIDEO OUTPUT LOCKS:") then
    (runBody lockLine body).bind fun r v => .done r (.VideoOutputLocks v)
  else if sh = bytes ("MONITORING OUTPUT LOCKS:") then
    (runBody lockLine body).bind fun r v => .done r (.MonitoringOutputLocks v)
  else if sh = bytes ("SERIAL PORT LOCKS:") then
    (runBody lockLine body).bind fun r v => .done r (.SerialPortLocks v)
  else if sh = bytes ("PROCESSING UNIT LOCKS:") then
    (runBody lockLine body).bind fun r v => .done r (.ProcessingUnitLocks v)
  else if sh = bytes ("FRAME BUFFER LOCKS:") then
    (runBody lockLine body).bind fun r v => .done r (.FrameBufferLocks v)
  else if sh = bytes ("VIDEO INPUT STATUS:") then
    (runBody hwLine body).bind fun r v => .done r (.VideoInputStatus v)
  else if sh = bytes ("VIDEO OUTPUT STATUS:") then
    (runBody hwLine body).bind fun r v => .done r (.VideoOutputStatus v)
  else if sh = bytes ("SERIAL PORT STATUS:") then
    (runBody hwLine body).bind fun r v => .done r (.SerialPortStatus v)
  else if sh = bytes ("ALARM STATUS:") then
    (runBody kvLine body).bind fun r v => .done r (.AlarmStatus (v.map alarmOf))
  else if sh = bytes ("CONFIGURATION:") then
    (runBody kvLine body).bind fun r v => .done r (.Configuration (v.map settingOf))
  else if sh = bytes ("ACK") then .done [] .ACK
  else if sh = bytes ("NAK") then .done [] .ACK
  else if sh = bytes ("PING:") then .done [] .Ping
  else if sh = bytes ("END PRELUDE:") then .done [] .EndPrelude
  else .done [] (.UnknownMessage th body)

/-- The `let (_, msg) = match ...` of `parse_single_block`: the body
parser result stands, its remainder replaced by the input position after
the block. -/
def dispatchHeader (sh th body i3 : List Nat) : PResult VideohubMessage :=
  liftBody i3 (dispatchBody sh th body)

/-- `VideohubMessage::parse_single_block`. -/
def parseSingleBlock (i : List Nat) : PResult VideohubMessage :=
  match multispace0 i with
  | none => .incomplete
  | some i0 =>
    (takeUntilNewline i0).bind fun i1 header =>
    (anyNewline i1).bind fun i2 _ =>
    (bodyAlt i2).bind fun i3 body =>
    dispatchHeader (upper (trimAsciiEnd header)) (trimAsciiEnd header) body i3

/-- `VideohubCodec::decode`: a parsed block advances the buffer past the
consumed bytes, Incomplete leaves the buffer untouched and yields no
item, a parse error is a protocol error. -/
def decode (src : List Nat) : Except Unit (List Nat × Option VideohubMessage) :=
  match parseSingleBlock src with
  | .done rem msg => .ok (rem, some msg)
  | .incomplete => .ok (src, none)
  | .error => .error ()

/-- Decimal ASCII digits of a `u32` (fuel-structured; `n + 1` fuel
always suffices since the value shrinks by a factor of ten each step). -/
def natAsciiAux : Nat → Nat → List Nat → List Nat
  | 0, _, acc => acc
  | f + 1, n, acc =>
    if n < 10 then (48 + n) :: acc
    else natAsciiAux f (n / 10) ((48 + n % 10) :: acc)

/-- Rust `Display` of a `u32`. -/
def natAscii (n : Nat) : List Nat := natAsciiAux (n + 1) n []

/-- Rust `Display` of `Present`. -/
def presentBytes : Present → List Nat
  | .Yes => bytes ("true")
  | .No => bytes ("false")
  | .NeedsUpdate => bytes ("needs_update")

/-- Rust `Display` of `LockState`. -/
def lockStateBytes : LockState → List Nat
  | .Owned => bytes ("O")
  | .Locked => bytes ("L")
  | .Unlocked => bytes ("U")

/-- Rust derived `Debug` of `HardwarePortType`, as emitted by the writer
with `{:?}`; for `Other` the payload is printed as a quoted string
(`escape_debug` is the identity on the plain ASCII payloads that appear
in this development). -/
def portTypeDebug : HardwarePortType → List Nat
  | .None => bytes ("None")
  | .BNC => bytes ("BNC")
  | .Optical => bytes ("Optical")
  | .Thunderbolt => bytes ("Thunderbolt")
  | .RS422 => bytes ("RS422")
  | .Other s => bytes ("Other(") ++ [34] ++ s ++ [34] ++ [41]

/-- One optional `Key: Value\n` line of the DeviceInfo writer. -/
def optLine (label : List Nat) (v : Option (List Nat)) : List Nat :=
  match v with
  | some x => label ++ bytes (": ") ++ x ++ [10]
  | none => []

/-- `writer::write_serialized` for `DeviceInfo`. -/
def writeDeviceInfo (d : DeviceInfo) : List Nat :=
  bytes ("VIDEOHUB DEVICE:") ++ [10]
  ++ optLine (bytes ("Device present")) (d.present.map presentBytes)
  ++ optLine (bytes ("Model name")) d.model_name
  ++ optLine (bytes ("Friendly name")) d.friendly_name
  ++ optLine (bytes ("Unique ID")) d.unique_id
  ++ optLine (bytes ("Video inputs")) (d.video_inputs.map natAscii)
  ++ optLine (bytes ("Video processing units")) (d.video_processing_units.map natAscii)
  ++ optLine (bytes ("Video outputs")) (d.video_outputs.map natAscii)
  ++ optLine (bytes ("Video monitoring outputs")) (d.video_monitoring_outputs.map natAscii)
  ++ optLine (bytes ("Serial ports")) (d.serial_ports.map natAscii)
  ++ ((d.unknown_fields.getD []).flatMap fun kv => kv.key ++ bytes (": ") ++ kv.value ++ [10])

/-- Label line `{id} {name}\n`. -/
def labelLineOut (l : Label) : List Nat := natAscii l.id ++ [32] ++ l.name ++ [10]

/-- Route line `{to_output} {from_input}\n`. -/
def routeLineOut (r : Route) : List Nat := natAscii r.to_output ++ [32] ++ natAscii r.from_input ++ [10]

/-- Lock line `{id} {state}\n`. -/
def lockLineOut (l : Lock) : List Nat := natAscii l.id ++ [32] ++ lockStateBytes l.state ++ [10]

/-- Status line `{id} {:?}\n`. -/
def hwLineOut (p : HardwarePort) : List Nat := natAscii p.id ++ [32] ++ portTypeDebug p.port_type ++ [10]

/-- Key/value line `{k}: {v}\n`. -/
def kvLineOut (k v : List Nat) : List Nat := k ++ bytes (": ") ++ v ++ [10]

/-- `writer::write_serialized`: header line, body lines, and the block
terminating blank line.  The quirks of the source are preserved: status
blocks print the debug form of the port type, and `SERIAL PORT STATUS`
lines lack their newline. -/
def writeSerialized (m : VideohubMessage) : List Nat :=
  (match m with
   | .Preamble ver => bytes ("PROTOCOL PREAMBLE:") ++ [10] ++ bytes ("Version: ") ++ ver ++ [10]
   | .DeviceInfo d => writeDeviceInfo d
   | .InputLabels v => bytes ("INPUT LABELS:") ++ [10] ++ v.flatMap labelLineOut
   | .OutputLabels v => bytes ("OUTPUT LABELS:") ++ [10] ++ v.flatMap labelLineOut
   | .MonitorOutputLabels v => bytes ("MONITOR OUTPUT LABELS:") ++ [10] ++ v.flatMap labelLineOut
   | .SerialPortLabels v => bytes ("SERIAL PORT LABELS:") ++ [10] ++ v.flatMap labelLineOut
   | .FrameLabels v => bytes ("FRAME LABELS:") ++ [10] ++ v.flatMap labelLineOut
   | .VideoOutputRouting v => bytes ("VIDEO OUTPUT ROUTING:") ++ [10] ++ v.flatMap routeLineOut
   | .VideoMonitoringOutputRouting v =>
     bytes ("VIDEO MONITORING OUTPUT ROUTING:") ++ [10] ++ v.flatMap routeLineOut
   | .SerialPortRouting v => bytes ("SERIAL PORT ROUTING:") ++ [10] ++ v.flatMap routeLineOut
   | .ProcessingUnitRouting v =>
     bytes ("PROCESSING UNIT ROUTING:") ++ [10] ++ v.flatMap routeLineOut
   | .FrameBufferRouting v => bytes ("FRAME BUFFER ROUTING:") ++ [10] ++ v.flatMap routeLineOut
   | .VideoOutputLocks v => bytes ("VIDEO OUTPUT LOCKS:") ++ [10] ++ v.flatMap lockLineOut
   | .MonitoringOutputLocks v =>
     bytes ("MONITORING OUTPUT LOCKS:") ++ [10] ++ v.flatMap lockLineOut
   | .SerialPortLocks v => bytes ("SERIAL PORT LOCKS:") ++ [10] ++ v.flatMap lockLineOut
   | .ProcessingUnitLocks v =>
     bytes ("PROCESSING UNIT LOCKS:") ++ [10] ++ v.flatMap lockLineOut
   | .FrameBufferLocks v => bytes ("FRAME BUFFER LOCKS:") ++ [10] ++ v.flatMap lockLineOut
   | .VideoInputStatus v => bytes ("VIDEO INPUT STATUS:") ++ [10] ++ v.flatMap hwLineOut
   | .VideoOutputStatus v => bytes ("VIDEO OUTPUT STATUS:") ++ [10] ++ v.flatMap hwLineOut
   | .SerialPortStatus v =>
     bytes ("SERIAL PORT STATUS:") ++ [10]
     ++ v.flatMap (fun p => natAscii p.id ++ [32] ++ portTypeDebug p.port_type)
   | .AlarmStatus v => bytes ("ALARM STATUS:") ++ [10] ++ v.flatMap fun a => kvLineOut a.name a.status
   | .Configuration v =>
     bytes ("CONFIGURATION:") ++ [10] ++ v.flatMap fun s => kvLineOut s.setting s.value
   | .ACK => bytes ("ACK") ++ [10]
   | .NAK => bytes ("NAK") ++ [10]
   | .Ping => bytes ("PING:") ++ [10]
   | .EndPrelude => bytes ("END PRELUDE:") ++ [10]
   | .UnknownMessage h body => h ++ [10] ++ body) ++ [10]

/-- `matrix::model::RouterInfo`. -/
structure RouterInfo where
  model : Option (List Nat) := none
  name : Option (List Nat) := none
  matrix_count : Option Nat := none
deriving DecidableEq, Repr

/-- `matrix::model::RouterMatrixInfo`. -/
structure RouterMatrixInfo where
  input_count : Nat := 0
  output_count : Nat := 0
deriving DecidableEq, Repr

/-- `matrix::model::RouterLabel`. -/
structure RouterLabel where
  id : Nat
  name : List Nat
deriving DecidableEq, Repr

/-- `matrix::model::RouterPatch`. -/
structure RouterPatch where
  from_input : Nat
  to_output : Nat
deriving DecidableEq, Repr

/-- `matrix::model::RouterEvent`. -/
inductive RouterEvent where
  | Connected
  | Disconnected
  | InfoUpdate (info : RouterInfo)
  | MatrixInfoUpdate (idx : Nat) (mi : RouterMatrixInfo)
  | InputLabelUpdate (idx : Nat) (labels : List RouterLabel)
  | OutputLabelUpdate (idx : Nat) (labels : List RouterLabel)
  | RouteUpdate (idx : Nat) (patches : List RouterPatch)
deriving DecidableEq, Repr

/-- `From<videohub::Label> for RouterLabel`. -/
def labelToRouter (l : Label) : RouterLabel := ⟨l.id, l.name⟩

/-- `Into<videohub::Label> for RouterLabel`. -/
def routerToLabel (l : RouterLabel) : Label := ⟨l.id, l.name⟩

/-- `From<videohub::Route> for RouterPatch`. -/
def routeToPatch (r : Route) : RouterPatch := ⟨r.from_input, r.to_output⟩

/-- `Into<videohub::Route> for RouterPatch`. -/
def patchToRoute (p : RouterPatch) : Route := ⟨p.from_input, p.to_output⟩

/-- `backend::videohub::CacheEvent`. -/
inductive CacheEvent where
  | InputLabels
  | OutputLabels
  | Routes
  | Disconnected
deriving DecidableEq, Repr

/-- `backend::videohub::Cache`. -/
structure Cache where
  info : RouterInfo := {}
  matrix_info : RouterMatrixInfo := {}
  input_labels : Option (List RouterLabel) := none
  output_labels : Option (List RouterLabel) := none
  routes : Option (List RouterPatch) := none
deriving DecidableEq, Repr

/-- `current[idx].name = new.name` where `idx` is the position of the
first label with the matching id. -/
def setFirstLabel : List RouterLabel → RouterLabel → List RouterLabel
  | [], _ => []
  | l :: ls, c => if l.id = c.id then ⟨l.id, c.name⟩ :: ls else l :: setFirstLabel ls c

/-- Merge one label change: overwrite the name of the first entry with
the same id, or append. -/
def mergeOneLabel (cur : List RouterLabel) (c : RouterLabel) : List RouterLabel :=
  if cur.any (fun l => l.id = c.id) then setFirstLabel cur c else cur ++ [c]

/-- The loop of `backend::videohub::update_labels`: out-of-range ids
abort with an error, keeping no merged result. -/
def mergeLabelsGo (cur : List RouterLabel) (maxIdx : Nat) :
    List RouterLabel → Option (List RouterLabel)
  | [] => some cur
  | c :: rest =>
    if maxIdx ≤ c.id then none
    else mergeLabelsGo (mergeOneLabel cur c) maxIdx rest

/-- `backend::videohub::update_labels` acting on the optional cached
list; the source takes the list out with `opt.replace(vec![])` and only
puts the merged list back on success, so the error path leaves the slot
holding `Some(vec![])`.  The boolean reports whether an error was
returned. -/
def updateLabels (opt : Option (List RouterLabel)) (changes : List RouterLabel)
    (maxIdx : Nat) : Option (List RouterLabel) × Bool :=
  match mergeLabelsGo (opt.getD []) maxIdx changes with
  | some merged => (some merged, false)
  | none => (some [], true)

/-- `current[idx].from_input = new.from_input` at the position of the
first patch with the matching `to_output`. -/
def setFirstRoute : List RouterPatch → RouterPatch → List RouterPatch
  | [], _ => []
  | p :: ps, c =>
    if p.to_output = c.to_output then ⟨c.from_input, p.to_output⟩ :: ps
    else p :: setFirstRoute ps c

/-- Merge one route change: overwrite the `from_input` of the first
entry with the same `to_output`, or append. -/
def mergeOneRoute (cur : List RouterPatch) (c : RouterPatch) : List RouterPatch :=
  if cur.any (fun p => p.to_output = c.to_output) then setFirstRoute cur c else cur ++ [c]

/-- The loop of `backend::videohub::update_routes`. -/
def mergeRoutesGo (cur : List RouterPatch) (maxIn maxOut : Nat) :
    List RouterPatch → Option (List RouterPatch)
  | [] => some cur
  | c :: rest =>
    if maxOut ≤ c.to_output ∨ maxIn ≤ c.from_input then none
    else mergeRoutesGo (mergeOneRoute cur c) maxIn maxOut rest

/-- `backend::videohub::update_routes` on the optional cached list, with
the same take-and-restore error behaviour as `update_labels`. -/
def updateRoutes (opt : Option (List RouterPatch)) (changes : List RouterPatch)
    (maxIn maxOut : Nat) : Option (List RouterPatch) × Bool :=
  match mergeRoutesGo (opt.getD []) maxIn maxOut changes with
  | some merged => (some merged, false)
  | none => (some [], true)

/-- The ACK/NAK resolution of the client event loop: a pending reply
slot is resolved with `msg == VideohubMessage::ACK`. -/
def ackResolve (m : VideohubMessage) : Bool := m = .ACK

/-- The cache update performed by the client event loop on an inbound
`InputLabels` message: merge bounded by the input dimension, log and
drop any error, and publish the cache event unconditionally. -/
def clientCacheInputLabels (c : Cache) (ls : List Label) : Cache × List CacheEvent :=
  let (nl, _errored) := updateLabels c.input_labels (ls.map labelToRouter)
    c.matrix_info.input_count
  ({ c with input_labels := nl }, [.InputLabels])

/-- The cache update performed by the client event loop on an inbound
`OutputLabels` message. -/
def clientCacheOutputLabels (c : Cache) (ls : List Label) : Cache × List CacheEvent :=
  let (nl, _errored) := updateLabels c.output_labels (ls.map labelToRouter)
    c.matrix_info.output_count
  ({ c with output_labels := nl }, [.OutputLabels])

/-- The cache update performed by the client event loop on an inbound
`VideoOutputRouting` message; the source takes both bounds from
`input_count`. -/
def clientCacheRoutes (c : Cache) (rs : List Route) : Cache × List CacheEvent :=
  let (nr, _errored) := updateRoutes c.routes (rs.map routeToPatch)
    c.matrix_info.input_count c.matrix_info.input_count
  ({ c with routes := nr }, [.Routes])

/-- `VideohubRouter::update_output_labels` after the ACK/NAK reply `ok`
arrived: on ACK the source merges the changes into the INPUT label
cache bounded by `input_count` and publishes no cache event; on NAK it
returns an error.  The result is (call result, cache after the call,
published cache events). -/
def clientUpdateOutputLabels (c : Cache) (changed : List RouterLabel) (ok : Bool) :
    Except (List Nat) Unit × Cache × List CacheEvent :=
  if ok then
    let count := c.matrix_info.input_count
    let (nl, errored) := updateLabels c.input_labels changed count
    let c2 := { c with input_labels := nl }
    if errored then (.error (bytes ("Label is out of index!")), c2, [])
    else (.ok (), c2, [])
  else (.error (bytes ("NAK")), c, [])

/-- The read path of `VideohubRouter::get_output_labels`: the cached
list is returned as-is when present; only a `none` cache goes to the
network. -/
def getOutputLabelsCached (c : Cache) : Option (List RouterLabel) := c.output_labels

/-- Ascending-by-id order on `RouterLabel` used by the frontend sorts. -/
def routerLabelLE (a b : RouterLabel) : Prop := a.id ≤ b.id

instance : DecidableRel routerLabelLE := fun a b => Nat.decLe a.id b.id

instance : IsTotal RouterLabel routerLabelLE := ⟨fun a b => Nat.le_total a.id b.id⟩

instance : IsTrans RouterLabel routerLabelLE := ⟨fun _ _ _ => Nat.le_trans⟩

/-- Ascending-by-`to_output` order on `RouterPatch`. -/
def patchLE (a b : RouterPatch) : Prop := a.to_output ≤ b.to_output

instance : DecidableRel patchLE := fun a b => Nat.decLe a.to_output b.to_output

instance : IsTotal RouterPatch patchLE := ⟨fun a b => Nat.le_total a.to_output b.to_output⟩

instance : IsTrans RouterPatch patchLE := ⟨fun _ _ _ => Nat.le_trans⟩

/-- Rust `sort_by(|a, b| a.id.cmp(&b.id))` is a stable ascending sort;
a stable sort is uniquely determined by its comparator, so the stable
insertion sort coincides with it. -/
def sortLabels (l : List RouterLabel) : List RouterLabel := List.insertionSort routerLabelLE l

/-- Rust `sort_by(|a, b| a.to_output.cmp(&b.to_output))`. -/
def sortRoutes (l : List RouterPatch) : List RouterPatch := List.insertionSort patchLE l

/-- `matrix::dummy::State`. -/
structure DummyState where
  is_alive : Bool
  info : RouterInfo
  matrix_info : List RouterMatrixInfo
  input_labels : List (List RouterLabel)
  output_labels : List (List RouterLabel)
  routes : List (List RouterPatch)
deriving DecidableEq, Repr

/-- `DummyRouter::with_config`. -/
def dummyWithConfig (matrixCount inputCount outputCount : Nat) : DummyState :=
  { is_alive := true
    info := { model := some (bytes ("DummyRouter ") ++ natAscii inputCount ++ [120]
                ++ natAscii outputCount)
              name := none
              matrix_count := some matrixCount }
    matrix_info := List.replicate matrixCount
      { input_count := inputCount, output_count := outputCount }
    input_labels := List.replicate matrixCount
      ((List.range inputCount).map fun n => ⟨n, bytes ("Input ") ++ natAscii (n + 1)⟩)
    output_labels := List.replicate matrixCount
      ((List.range outputCount).map fun n => ⟨n, bytes ("Output ") ++ natAscii (n + 1)⟩)
    routes := List.replicate matrixCount
      ((List.range outputCount).map fun n => ⟨0, n⟩) }

/-- `DummyRouter::validate_index`. -/
def validateIdx (st : DummyState) (idx : Nat) : Except (List Nat) Unit :=
  if idx < st.matrix_info.length then .ok ()
  else .error (bytes ("Matrix index out of range"))

/-- `DummyRouter::get_matrix_info`. -/
def dummyGetMatrixInfo (st : DummyState) (idx : Nat) : Except (List Nat) RouterMatrixInfo :=
  (validateIdx st idx).bind fun _ => .ok (st.matrix_info.getD idx {})

/-- `DummyRouter::get_input_labels`. -/
def dummyGetInputLabels (st : DummyState) (idx : Nat) : Except (List Nat) (List RouterLabel) :=
  (validateIdx st idx).bind fun _ => .ok (st.input_labels.getD idx [])

/-- `DummyRouter::get_output_labels`. -/
def dummyGetOutputLabels (st : DummyState) (idx : Nat) : Except (List Nat) (List RouterLabel) :=
  (validateIdx st idx).bind fun _ => .ok (st.output_labels.getD idx [])

/-- `DummyRouter::get_routes`. -/
def dummyGetRoutes (st : DummyState) (idx : Nat) : Except (List Nat) (List RouterPatch) :=
  (validateIdx st idx).bind fun _ => .ok (st.routes.getD idx [])

/-- Overwrite the name of the label stored at position `i`. -/
def setLabelName : List RouterLabel → Nat → List Nat → List RouterLabel
  | [], _, _ => []
  | l :: ls, 0, nm => ⟨l.id, nm⟩ :: ls
  | l :: ls, n + 1, nm => l :: setLabelName ls n nm

/-- The mutation loop of `DummyRouter::update_input_labels` /
`update_output_labels` on one label row: `row[change.id].name` is
assigned in order; the first out-of-range id aborts, keeping the
mutations already made.  Returns (row, errored, changes_happened). -/
def dummyLabelsGo (row : List RouterLabel) (cnt : Nat) :
    List RouterLabel → Bool → List RouterLabel × Bool × Bool
  | [], happened => (row, false, happened)
  | c :: rest, _happened =>
    if cnt ≤ c.id then (row, true, _happened)
    else dummyLabelsGo (setLabelName row c.id c.name) cnt rest true

/-- `DummyRouter::update_input_labels`: result, state after the call
(partial mutations persist across the error return), broadcast events. -/
def dummyUpdateInputLabels (st : DummyState) (idx : Nat) (changed : List RouterLabel) :
    Except (List Nat) Unit × DummyState × List RouterEvent :=
  match validateIdx st idx with
  | .error e => (.error e, st, [])
  | .ok _ =>
    let cnt := (st.matrix_info.getD idx {}).input_count
    let (row, errored, happened) := dummyLabelsGo (st.input_labels.getD idx []) cnt changed false
    let st2 := { st with input_labels := st.input_labels.set idx row }
    if errored then (.error (bytes ("input label outside of range")), st2, [])
    else (.ok (), st2, if happened then [.InputLabelUpdate idx row] else [])

/-- `DummyRouter::update_output_labels`. -/
def dummyUpdateOutputLabels (st : DummyState) (idx : Nat) (changed : List RouterLabel) :
    Except (List Nat) Unit × DummyState × List RouterEvent :=
  match validateIdx st idx with
  | .error e => (.error e, st, [])
  | .ok _ =>
    let cnt := (st.matrix_info.getD idx {}).output_count
    let (row, errored, happened) := dummyLabelsGo (st.output_labels.getD idx []) cnt changed false
    let st2 := { st with output_labels := st.output_labels.set idx row }
    if errored then (.error (bytes ("output label outside of range")), st2, [])
    else (.ok (), st2, if happened then [.OutputLabelUpdate idx row] else [])

/-- Overwrite the `from_input` of the patch stored at position `i`. -/
def setRouteInput : List RouterPatch → Nat → Nat → List RouterPatch
  | [], _, _ => []
  | p :: ps, 0, f => ⟨f, p.to_output⟩ :: ps
  | p :: ps, n + 1, f => p :: setRouteInput ps n f

/-- The mutation loop of `DummyRouter::update_routes` on one route row:
`row[p.to_output].from_input = p.from_input` in order, aborting at the
first out-of-bounds patch while keeping earlier mutations. -/
def dummyRoutesGo (row : List RouterPatch) (inputs outputs : Nat) :
    List RouterPatch → Bool → List RouterPatch × Bool × Bool
  | [], happened => (row, false, happened)
  | p :: rest, _happened =>
    if inputs ≤ p.from_input ∨ outputs ≤ p.to_output then (row, true, _happened)
    else dummyRoutesGo (setRouteInput row p.to_output p.from_input) inputs outputs rest true

/-- `DummyRouter::update_routes`. -/
def dummyUpdateRoutes (st : DummyState) (idx : Nat) (changes : List RouterPatch) :
    Except (List Nat) Unit × DummyState × List RouterEvent :=
  match validateIdx st idx with
  | .error e => (.error e, st, [])
  | .ok _ =>
    let mi := st.matrix_info.getD idx {}
    let (row, errored, happened) :=
      dummyRoutesGo (st.routes.getD idx []) mi.input_count mi.output_count changes false
    let st2 := { st with routes := st.routes.set idx row }
    if errored then (.error (bytes ("Patch out of bounds")), st2, [])
    else (.ok (), st2, if happened then [.RouteUpdate idx row] else [])

/-- The `MatrixRouter` capability surface as consumed by the server
frontend, with each operation giving the result of its (awaited) call. -/
structure RouterOps where
  is_alive : Except (List Nat) Bool
  get_router_info : Except (List Nat) RouterInfo
  get_matrix_info : Nat → Except (List Nat) RouterMatrixInfo
  get_input_labels : Nat → Except (List Nat) (List RouterLabel)
  get_output_labels : Nat → Except (List Nat) (List RouterLabel)
  get_routes : Nat → Except (List Nat) (List RouterPatch)

/-- `VideohubFrontend::gen_inputlabels`: fetch, sort ascending by id,
convert. -/
def genInputLabels (r : RouterOps) (idx : Nat) : Except (List Nat) VideohubMessage :=
  (r.get_input_labels idx).bind fun ls =>
  .ok (.InputLabels ((sortLabels ls).map routerToLabel))

/-- `VideohubFrontend::gen_outputlabels`. -/
def genOutputLabels (r : RouterOps) (idx : Nat) : Except (List Nat) VideohubMessage :=
  (r.get_output_labels idx).bind fun ls =>
  .ok (.OutputLabels ((sortLabels ls).map routerToLabel))

/-- `VideohubFrontend::gen_routing`: fetch, sort ascending by
`to_output`, convert. -/
def genRouting (r : RouterOps) (idx : Nat) : Except (List Nat) VideohubMessage :=
  (r.get_routes idx).bind fun rs =>
  .ok (.VideoOutputRouting ((sortRoutes rs).map patchToRoute))

/-- `VideohubFrontend::create_initial_dump` as the sequence of messages
the `try_stream` yields, together with the error that terminates the
stream early, if any. -/
def createInitialDump (r : RouterOps) (idx : Nat) :
    List VideohubMessage × Option (List Nat) :=
  let pre := VideohubMessage.Preamble (bytes ("2.7"))
  match r.is_alive with
  | .error e => ([pre], some e)
  | .ok alive =>
    if alive then
      match r.get_router_info with
      | .error e => ([pre], some e)
      | .ok si =>
        match r.get_matrix_info idx with
        | .error e => ([pre], some e)
        | .ok mi =>
          let di : DeviceInfo :=
            { present := some .Yes
              model_name := si.model
              friendly_name := si.name
              video_inputs := some mi.input_count
              video_outputs := some mi.output_count }
          match genInputLabels r idx with
          | .error e => ([pre, .DeviceInfo di], some e)
          | .ok inMsg =>
            match genOutputLabels r idx with
            | .error e => ([pre, .DeviceInfo di, inMsg], some e)
            | .ok outMsg =>
              match genRouting r idx with
              | .error e => ([pre, .DeviceInfo di, inMsg, outMsg], some e)
              | .ok routeMsg =>
                ([pre, .DeviceInfo di, inMsg, outMsg, routeMsg, .EndPrelude], none)
    else
      ([pre, .DeviceInfo { present := some .No }, .EndPrelude], none)

/-- The getters of a `DummyRouter` packaged as `RouterOps`. -/
def dummyOps (st : DummyState) : RouterOps :=
  { is_alive := .ok st.is_alive
    get_router_info := .ok st.info
    get_matrix_info := dummyGetMatrixInfo st
    get_input_labels := dummyGetInputLabels st
    get_output_labels := dummyGetOutputLabels st
    get_routes := dummyGetRoutes st }

/-- `VideohubFrontend::handle_message` with the repository's concrete
router (`DummyRouter`) attached: the optional reply (or the error the
`?` operator propagates to `handle_connection`, which then tears down
the connection without replying), the router state after the call and
the events the router broadcast. -/
def handleMessage (st : DummyState) (idx : Nat) (msg : VideohubMessage) :
    Except (List Nat) (Option VideohubMessage) × DummyState × List RouterEvent :=
  match msg with
  | .Ping => (.ok (some .ACK), st, [])
  | .InputLabels labels =>
    if labels.isEmpty then
      match genInputLabels (dummyOps st) idx with
      | .ok m => (.ok (some m), st, [])
      | .error e => (.error e, st, [])
    else
      match dummyUpdateInputLabels st idx (labels.map labelToRouter) with
      | (.ok _, st2, evs) => (.ok (some .ACK), st2, evs)
      | (.error e, st2, evs) => (.error e, st2, evs)
  | .OutputLabels labels =>
    if labels.isEmpty then
      match genOutputLabels (dummyOps st) idx with
      | .ok m => (.ok (some m), st, [])
      | .error e => (.error e, st, [])
    else
      match dummyUpdateOutputLabels st idx (labels.map labelToRouter) with
      | (.ok _, st2, evs) => (.ok (some .ACK), st2, evs)
      | (.error e, st2, evs) => (.error e, st2, evs)
  | .VideoOutputRouting routes =>
    if routes.isEmpty then
      match genRouting (dummyOps st) idx with
      | .ok m => (.ok (some m), st, [])
      | .error e => (.error e, st, [])
    else
      match dummyUpdateRoutes st idx (routes.map routeToPatch) with
      | (.ok _, st2, evs) => (.ok (some .ACK), st2, evs)
      | (.error e, st2, evs) => (.error e, st2, evs)
  | _ => (.ok (some .NAK), st, [])

deriving instance DecidableEq for Except

/-- Claim C1.  The round-trip law fails on the code: the message parsed
from the block `VIDEO INPUT STATUS:\n0 one\n\n` (port type `None` — the
parser matches the lowercased token against `one`) is serialized by the
writer with the debug form `None`, which the parser does not recognize
and turns into `Other("None")`; serialize-then-parse therefore does not
restore the message, with an empty remainder offset to spare. -/
theorem c1_status_roundtrip_fails_at_code :
    parseSingleBlock (bytes ("VIDEO INPUT STATUS:\n0 one\n\n"))
        = .done [] (.VideoInputStatus [⟨0, .None⟩])
    ∧ writeSerialized (.VideoInputStatus [⟨0, .None⟩])
        = bytes ("VIDEO INPUT STATUS:\n0 None\n\n")
    ∧ parseSingleBlock (writeSerialized (.VideoInputStatus [⟨0, .None⟩]))
        = .done [] (.VideoInputStatus [⟨0, .Other (bytes ("None"))⟩])
    ∧ (VideohubMessage.VideoInputStatus [⟨0, .Other (bytes ("None"))⟩]
        ≠ .VideoInputStatus [⟨0, .None⟩]) := by
  refine ⟨by decide, by decide, by decide, by decide⟩

/-- Claim C2.  The single-line block `NAK` parses to the `ACK` message,
not to `NAK` (the `NAK` arm of `parse_single_block` yields `ACK`), and
the client engine resolves a pending reply slot with
`msg == ACK`, so a wire `NAK` reply resolves the slot to `true`. -/
theorem c2_nak_block_resolves_true :
    parseSingleBlock (bytes ("NAK\n\n")) = .done [] .ACK
    ∧ parseSingleBlock (bytes ("NAK\n\n")) ≠ .done [] .NAK
    ∧ ackResolve .ACK = true := by
  refine ⟨by decide, by decide, by decide⟩

/-- Claim C5.  After `update_output_labels` is acknowledged with
ACK=true, the code merges the change into the INPUT label cache (bounded
by `input_count`) and publishes no cache event, so the cached output
labels are unchanged and a subsequent `get_output_labels` returns the
stale list; the ACK=false path does return an error. -/
theorem c5_update_output_labels_misses_cache :
    clientUpdateOutputLabels
        { matrix_info := { input_count := 1, output_count := 1 },
          input_labels := some [], output_labels := some [⟨0, bytes ("Old")⟩] }
        [⟨0, bytes ("New")⟩] true
      = (.ok (),
         { matrix_info := { input_count := 1, output_count := 1 },
           input_labels := some [⟨0, bytes ("New")⟩],
           output_labels := some [⟨0, bytes ("Old")⟩] }, [])
    ∧ getOutputLabelsCached
        { matrix_info := { input_count := 1, output_count := 1 },
          input_labels := some [⟨0, bytes ("New")⟩],
          output_labels := some [⟨0, bytes ("Old")⟩] }
      = some [⟨0, bytes ("Old")⟩]
    ∧ clientUpdateOutputLabels
        { matrix_info := { input_count := 1, output_count := 1 },
          input_labels := some [], output_labels := some [⟨0, bytes ("Old")⟩] }
        [⟨0, bytes ("New")⟩] false
      = (.error (bytes ("NAK")),
         { matrix_info := { input_count := 1, output_count := 1 },
           input_labels := some [], output_labels := some [⟨0, bytes ("Old")⟩] }, []) := by
  refine ⟨by decide, by decide, by decide⟩

/-- Claim C6.  When an inbound `InputLabels` message contains one
over-range id, `update_labels` has already taken the cached list out via
`opt.replace(vec![])` and returns early, so the cache is left holding
`Some([])`: the previously cached in-range label and the in-range entry
of the same message are both gone (the cache event is still sent and the
error is only logged). -/
theorem c6_overrange_label_wipes_cache :
    clientCacheInputLabels
        { matrix_info := { input_count := 2, output_count := 2 },
          input_labels := some [⟨0, bytes ("A")⟩] }
        [⟨0, bytes ("B")⟩, ⟨5, bytes ("X")⟩]
      = ({ matrix_info := { input_count := 2, output_count := 2 },
           input_labels := some [] }, [.InputLabels])
    ∧ updateLabels (some [⟨0, bytes ("A")⟩])
        [⟨0, bytes ("B")⟩, ⟨5, bytes ("X")⟩] 2 = (some [], true) := by
  refine ⟨by decide, by decide⟩

/-- Claim C9.  In `parse_device_body` the key `Friendly name` is written
to the `unique_id` field and `friendly_name` stays empty; when both keys
appear, `Unique ID` overwrites the same single field. -/
theorem c9_friendly_name_goes_to_unique_id :
    parseSingleBlock (bytes ("VIDEOHUB DEVICE:\nFriendly name: Alpha\n\n"))
      = .done [] (.DeviceInfo { friendly_name := none, unique_id := some (bytes ("Alpha")) })
    ∧ parseSingleBlock (bytes ("VIDEOHUB DEVICE:\nFriendly name: Alpha\nUnique ID: Beta\n\n"))
      = .done []
          (.DeviceInfo { friendly_name := none, unique_id := some (bytes ("Beta")) }) := by
  refine ⟨by decide, by decide⟩

/-- The message kinds `handle_message` treats specially; every other
kind falls through to the NAK arm. -/
def serverHandledKind : VideohubMessage → Bool
  | .Ping => true
  | .InputLabels _ => true
  | .OutputLabels _ => true
  | .VideoOutputRouting _ => true
  | _ => false

/-- Claim C4, counterexample.  An `InputLabels` update whose router call
fails (out-of-range id 5 on a 2x2 router) makes `handle_message` return
the error — which `handle_connection` propagates, tearing the connection
down — instead of replying NAK as the claim states. -/
theorem c4_counterexample_error_not_nak :
    (handleMessage (dummyWithConfig 1 2 2) 0
        (.InputLabels [⟨5, bytes ("Bad")⟩])).1
      = .error (bytes ("input label outside of range"))
    ∧ (handleMessage (dummyWithConfig 1 2 2) 0
        (.InputLabels [⟨5, bytes ("Bad")⟩])).1
      ≠ .ok (some .NAK) := by
  refine ⟨by decide, by decide⟩

/-- Claim C4, amended.  For every inbound client message handled by the
server engine: an `InputLabels`, `OutputLabels` or `VideoOutputRouting`
message with entries causes a router update call and the server replies
ACK when that call succeeds, while a failing call (including
out-of-range errors) propagates its error to the connection handler —
closing the connection without any NAK reply; any message of a kind the
server does not handle receives a NAK reply rather than being silently
dropped. -/
theorem c4_update_reply_behaviour (st : DummyState) (idx : Nat) :
    (∀ labels, labels ≠ [] →
      (handleMessage st idx (.InputLabels labels)).1 =
        match (dummyUpdateInputLabels st idx (labels.map labelToRouter)).1 with
        | .ok _ => .ok (some .ACK)
        | .error e => .error e)
    ∧ (∀ labels, labels ≠ [] →
      (handleMessage st idx (.OutputLabels labels)).1 =
        match (dummyUpdateOutputLabels st idx (labels.map labelToRouter)).1 with
        | .ok _ => .ok (some .ACK)
        | .error e => .error e)
    ∧ (∀ routes, routes ≠ [] →
      (handleMessage st idx (.VideoOutputRouting routes)).1 =
        match (dummyUpdateRoutes st idx (routes.map routeToPatch)).1 with
        | .ok _ => .ok (some .ACK)
        | .error e => .error e)
    ∧ (∀ msg, serverHandledKind msg = false →
        handleMessage st idx msg = (.ok (some .NAK), st, [])) := by
  refine ⟨?_, ?_, ?_, ?_⟩
  · intro labels hne
    have hE : labels.isEmpty = false := by
      cases labels with
      | nil => exact absurd rfl hne
      | cons a l => rfl
    rcases hupd : dummyUpdateInputLabels st idx (labels.map labelToRouter) with ⟨r, st2, evs⟩
    cases r with
    | ok u => simp [handleMessage, hE, hupd]
    | error e => simp [handleMessage, hE, hupd]
  · intro labels hne
    have hE : labels.isEmpty = false := by
      cases labels with
      | nil => exact absurd rfl hne
      | cons a l => rfl
    rcases hupd : dummyUpdateOutputLabels st idx (labels.map labelToRouter) with ⟨r, st2, evs⟩
    cases r with
    | ok u => simp [handleMessage, hE, hupd]
    | error e => simp [handleMessage, hE, hupd]
  · intro routes hne
    have hE : routes.isEmpty = false := by
      cases routes with
      | nil => exact absurd rfl hne
      | cons a l => rfl
    rcases hupd : dummyUpdateRoutes st idx (routes.map routeToPatch) with ⟨r, st2, evs⟩
    cases r with
    | ok u => simp [handleMessage, hE, hupd]
    | error e => simp [handleMessage, hE, hupd]
  · intro msg hm
    cases msg <;> first
      | rfl
      | exact absurd hm (by simp [serverHandledKind])

/-- Claim C4, witness: the amended behaviour at concrete inputs — a
successful update replies ACK, a failing one propagates the error, and
an `AlarmStatus` message (unhandled kind) gets NAK. -/
theorem c4_update_reply_behaviour_witness :
    (handleMessage (dummyWithConfig 1 2 2) 0
        (.InputLabels [⟨1, bytes ("Test Label")⟩])).1 = .ok (some .ACK)
    ∧ (handleMessage (dummyWithConfig 1 2 2) 0
        (.OutputLabels [⟨5, bytes ("Bad")⟩])).1
        = .error (bytes ("output label outside of range"))
    ∧ handleMessage (dummyWithConfig 1 2 2) 0 (.AlarmStatus [])
        = (.ok (some .NAK), dummyWithConfig 1 2 2, []) := by
  refine ⟨?_, ?_, ?_⟩
  · have h := (c4_update_reply_behaviour (dummyWithConfig 1 2 2) 0).1
      [⟨1, bytes ("Test Label")⟩] (by decide)
    rw [h]
    decide
  · have h := (c4_update_reply_behaviour (dummyWithConfig 1 2 2) 0).2.1
      [⟨5, bytes ("Bad")⟩] (by decide)
    rw [h]
    decide
  · exact (c4_update_reply_behaviour (dummyWithConfig 1 2 2) 0).2.2.2
      (.AlarmStatus []) (by decide)

/-- Ascending-by-id order on emitted wire labels. -/
def labelIdLE (a b : Label) : Prop := a.id ≤ b.id

/-- Ascending-by-`to_output` order on emitted wire routes. -/
def routeOutLE (a b : Route) : Prop := a.to_output ≤ b.to_output

/-- Claim C7.  On an accepted connection the initial dump is, in this
exact order, when every router call succeeds and the router is alive:
Preamble advertising 2.7, DeviceInfo (presence Yes, model and name from
`get_router_info`, inputs and outputs from `get_matrix_info`),
InputLabels sorted ascending by id, OutputLabels sorted ascending by id,
VideoOutputRouting sorted ascending by `to_output`, EndPrelude — and
exactly Preamble, DeviceInfo with presence No, EndPrelude when the
router is not alive. -/
theorem c7_initial_dump_order (r : RouterOps) (idx : Nat) :
    (∀ si mi il ol rt,
      r.is_alive = .ok true →
      r.get_router_info = .ok si →
      r.get_matrix_info idx = .ok mi →
      r.get_input_labels idx = .ok il →
      r.get_output_labels idx = .ok ol →
      r.get_routes idx = .ok rt →
      createInitialDump r idx =
        ([ .Preamble (bytes ("2.7")),
           .DeviceInfo { present := some .Yes, model_name := si.model,
                         friendly_name := si.name,
                         video_inputs := some mi.input_count,
                         video_outputs := some mi.output_count },
           .InputLabels ((sortLabels il).map routerToLabel),
           .OutputLabels ((sortLabels ol).map routerToLabel),
           .VideoOutputRouting ((sortRoutes rt).map patchToRoute),
           .EndPrelude ], none)
      ∧ List.Sorted labelIdLE ((sortLabels il).map routerToLabel)
      ∧ List.Sorted labelIdLE ((sortLabels ol).map routerToLabel)
      ∧ List.Sorted routeOutLE ((sortRoutes rt).map patchToRoute))
    ∧ (r.is_alive = .ok false →
      createInitialDump r idx =
        ([ .Preamble (bytes ("2.7")),
           .DeviceInfo { present := some .No },
           .EndPrelude ], none)) := by
  constructor
  · intro si mi il ol rt ha hi hm hil hol hrt
    refine ⟨?_, ?_, ?_, ?_⟩
    · simp [createInitialDump, genInputLabels, genOutputLabels, genRouting,
        ha, hi, hm, hil, hol, hrt, Except.bind]
    · exact (List.sorted_insertionSort routerLabelLE il).map routerToLabel fun a b h => h
    · exact (List.sorted_insertionSort routerLabelLE ol).map routerToLabel fun a b h => h
    · exact (List.sorted_insertionSort patchLE rt).map patchToRoute fun a b h => h
  · intro ha
    simp [createInitialDump, ha]

/-- Claim C7, witness: the dump of the live 2x2 dummy router and of the
same router marked dead. -/
theorem c7_initial_dump_order_witness :
    createInitialDump (dummyOps (dummyWithConfig 1 2 2)) 0 =
      ([ .Preamble (bytes ("2.7")),
         .DeviceInfo { present := some .Yes,
                       model_name := some (bytes ("DummyRouter 2x2")),
                       video_inputs := some 2, video_outputs := some 2 },
         .InputLabels [⟨0, bytes ("Input 1")⟩, ⟨1, bytes ("Input 2")⟩],
         .OutputLabels [⟨0, bytes ("Output 1")⟩, ⟨1, bytes ("Output 2")⟩],
         .VideoOutputRouting [⟨0, 0⟩, ⟨0, 1⟩],
         .EndPrelude ], none)
    ∧ createInitialDump (dummyOps { dummyWithConfig 1 2 2 with is_alive := false }) 0 =
      ([ .Preamble (bytes ("2.7")),
         .DeviceInfo { present := some .No },
         .EndPrelude ], none) := by
  constructor
  · have h := ((c7_initial_dump_order (dummyOps (dummyWithConfig 1 2 2)) 0).1
      (dummyWithConfig 1 2 2).info { input_count := 2, output_count := 2 }
      ((dummyWithConfig 1 2 2).input_labels.getD 0 [])
      ((dummyWithConfig 1 2 2).output_labels.getD 0 [])
      ((dummyWithConfig 1 2 2).routes.getD 0 [])
      rfl rfl (by decide) (by decide) (by decide) (by decide)).1
    rw [h]
    decide
  · exact (c7_initial_dump_order
      (dummyOps { dummyWithConfig 1 2 2 with is_alive := false }) 0).2 rfl

/-- The `from_input` currently routed to `t`, looked up at the first
entry with that `to_output` (the entry the merge loop overwrites). -/
def findRoute (l : List RouterPatch) (t : Nat) : Option Nat :=
  (l.find? (fun p => p.to_output == t)).map (fun p => p.from_input)

/-- The `from_input` of the last incoming entry for `to_output = t`. -/
def lastChangeFor (changes : List RouterPatch) (t : Nat) : Option Nat :=
  ((changes.filter (fun p => p.to_output == t)).getLast?).map (fun p => p.from_input)

theorem findRoute_nil (t : Nat) : findRoute [] t = none := rfl

theorem findRoute_cons_eq (p : RouterPatch) (ps : List RouterPatch) (t : Nat)
    (h : p.to_output = t) : findRoute (p :: ps) t = some p.from_input := by
  unfold findRoute
  rw [List.find?_cons_of_pos ps (by simp [h])]
  rfl

theorem findRoute_cons_ne (p : RouterPatch) (ps : List RouterPatch) (t : Nat)
    (h : ¬ p.to_output = t) : findRoute (p :: ps) t = findRoute ps t := by
  unfold findRoute
  rw [List.find?_cons_of_neg ps (by simp [h])]

theorem mergeOneRoute_cons_ne (p : RouterPatch) (ps : List RouterPatch) (c : RouterPatch)
    (h : ¬ p.to_output = c.to_output) :
    mergeOneRoute (p :: ps) c = p :: mergeOneRoute ps c := by
  simp only [mergeOneRoute, List.any_cons, setFirstRoute, if_neg h, decide_eq_true_eq]
  by_cases ha : (ps.any fun q => decide (q.to_output = c.to_output)) = true
  · simp [ha, h]
  · simp [ha, h]

theorem mergeOneRoute_cons_eq (p : RouterPatch) (ps : List RouterPatch) (c : RouterPatch)
    (h : p.to_output = c.to_output) :
    mergeOneRoute (p :: ps) c = ⟨c.from_input, p.to_output⟩ :: ps := by
  have hany : ((p :: ps).any fun q => decide (q.to_output = c.to_output)) = true := by
    simp [List.any_cons, h]
  simp only [mergeOneRoute, hany, if_pos, setFirstRoute, if_pos h]

theorem findRoute_mergeOneRoute (cur : List RouterPatch) (c : RouterPatch) (t : Nat) :
    findRoute (mergeOneRoute cur c) t =
      if c.to_output = t then some c.from_input else findRoute cur t := by
  induction cur with
  | nil =>
    have hm : mergeOneRoute [] c = [c] := by simp [mergeOneRoute, setFirstRoute]
    rw [hm]
    by_cases h : c.to_output = t
    · rw [findRoute_cons_eq c [] t h, if_pos h]
    · rw [findRoute_cons_ne c [] t h, if_neg h, findRoute_nil]
  | cons p ps ih =>
    by_cases hp : p.to_output = c.to_output
    · rw [mergeOneRoute_cons_eq p ps c hp]
      by_cases ht : c.to_output = t
      · rw [findRoute_cons_eq ⟨c.from_input, p.to_output⟩ ps t (hp.trans ht), if_pos ht]
      · have hpt : ¬ p.to_output = t := fun hcon => ht (hp ▸ hcon)
        rw [findRoute_cons_ne ⟨c.from_input, p.to_output⟩ ps t hpt, if_neg ht,
          findRoute_cons_ne p ps t hpt]
    · rw [mergeOneRoute_cons_ne p ps c hp]
      by_cases ht : p.to_output = t
      · have hct : ¬ c.to_output = t := fun hcon => hp (ht.trans hcon.symm)
        rw [findRoute_cons_eq p (mergeOneRoute ps c) t ht, if_neg hct,
          findRoute_cons_eq p ps t ht]
      · rw [findRoute_cons_ne p (mergeOneRoute ps c) t ht, findRoute_cons_ne p ps t ht]
        exact ih

theorem setFirstRoute_map_to (cur : List RouterPatch) (c : RouterPatch) :
    (setFirstRoute cur c).map (fun p => p.to_output) = cur.map (fun p => p.to_output) := by
  induction cur with
  | nil => rfl
  | cons p ps ih =>
    by_cases hp : p.to_output = c.to_output
    · simp [setFirstRoute, hp]
    · simp [setFirstRoute, hp, ih]

theorem mergeOneRoute_nodup (cur : List RouterPatch) (c : RouterPatch)
    (h : (cur.map (fun p => p.to_output)).Nodup) :
    ((mergeOneRoute cur c).map (fun p => p.to_output)).Nodup := by
  by_cases ha : (cur.any fun p => decide (p.to_output = c.to_output)) = true
  · simpa [mergeOneRoute, ha, setFirstRoute_map_to] using h
  · have hall : ∀ p ∈ cur, ¬ p.to_output = c.to_output := by simpa using ha
    have hd : (cur.map (fun p => p.to_output)).Disjoint [c.to_output] := by
      intro x hx hxs
      rw [List.mem_singleton] at hxs
      rw [List.mem_map] at hx
      obtain ⟨p, hpmem, hpeq⟩ := hx
      exact hall p hpmem (hpeq.trans hxs)
    have hm : mergeOneRoute cur c = cur ++ [c] := by simp [mergeOneRoute, ha]
    rw [hm, List.map_append]
    exact List.nodup_append.mpr ⟨h, List.nodup_singleton _, hd⟩


theorem lastChangeFor_cons (c : RouterPatch) (rest : List RouterPatch) (t : Nat) :
    lastChangeFor (c :: rest) t =
      match lastChangeFor rest t with
      | some f => some f
      | none => if c.to_output = t then some c.from_input else none := by
  unfold lastChangeFor
  by_cases hc : c.to_output = t
  · have hfil : (c :: rest).filter (fun p => p.to_output == t)
        = c :: rest.filter (fun p => p.to_output == t) := by
      rw [List.filter_cons]
      simp [hc]
    rw [hfil]
    rcases hrest : rest.filter (fun p => p.to_output == t) with _ | ⟨q, qs⟩
    · rw [hrest]
      simp [hc]
    · rw [hrest, List.getLast?_cons_cons]
      rcases hql : (q :: qs).getLast? with _ | x
      · exact absurd hql (by simp)
      · rfl
  · have hfil : (c :: rest).filter (fun p => p.to_output == t)
        = rest.filter (fun p => p.to_output == t) := by
      rw [List.filter_cons]
      simp [hc]
    rw [hfil]
    rcases hq : (rest.filter (fun p => p.to_output == t)).getLast? with _ | x
    · rw [hq]
      exact (if_neg hc).symm
    · rw [hq]
      rfl

/-- The merge loop of the client `update_routes`, characterized: when it
succeeds, each `to_output` mentioned by the incoming changes holds the
`from_input` of the last change for it (last-wins, also across
duplicates), untouched outputs keep their routing, and at-most-once
`to_output` occurrence is preserved. -/
theorem mergeRoutesGo_spec (changes : List RouterPatch) :
    ∀ (cur : List RouterPatch) (maxIn maxOut : Nat) (merged : List RouterPatch),
    mergeRoutesGo cur maxIn maxOut changes = some merged →
      (∀ t f, lastChangeFor changes t = some f → findRoute merged t = some f)
      ∧ (∀ t, lastChangeFor changes t = none → findRoute merged t = findRoute cur t)
      ∧ ((cur.map (fun p => p.to_output)).Nodup →
          (merged.map (fun p => p.to_output)).Nodup) := by
  induction changes with
  | nil =>
    intro cur maxIn maxOut merged h
    simp only [mergeRoutesGo, Option.some_inj] at h
    subst h
    exact ⟨fun t f hf => by simp [lastChangeFor] at hf, fun t _ => rfl, fun h => h⟩
  | cons c rest ih =>
    intro cur maxIn maxOut merged h
    simp only [mergeRoutesGo] at h
    by_cases hb : maxOut ≤ c.to_output ∨ maxIn ≤ c.from_input
    · rw [if_pos hb] at h
      exact absurd h (by simp)
    · rw [if_neg hb] at h
      obtain ⟨h1, h2, h3⟩ := ih (mergeOneRoute cur c) maxIn maxOut merged h
      refine ⟨?_, ?_, ?_⟩
      · intro t f hf
        rw [lastChangeFor_cons] at hf
        rcases hrest : lastChangeFor rest t with _ | f2
        · rw [hrest] at hf
          by_cases hc : c.to_output = t
          · rw [if_pos hc] at hf
            rw [h2 t hrest, findRoute_mergeOneRoute, if_pos hc]
            exact hf
          · rw [if_neg hc] at hf
            exact absurd hf (by simp)
        · rw [hrest] at hf
          exact hf ▸ h1 t f2 hrest
      · intro t hn
        rw [lastChangeFor_cons] at hn
        rcases hrest : lastChangeFor rest t with _ | f2
        · rw [hrest] at hn
          by_cases hc : c.to_output = t
          · rw [if_pos hc] at hn
            exact absurd hn (by simp)
          · rw [h2 t hrest, findRoute_mergeOneRoute, if_neg hc]
        · rw [hrest] at hn
          exact absurd hn (by simp)
      · intro hnd
        exact h3 (mergeOneRoute_nodup cur c hnd)

theorem setRouteInput_map_to (row : List RouterPatch) (i f : Nat) :
    (setRouteInput row i f).map (fun p => p.to_output) = row.map (fun p => p.to_output) := by
  induction row generalizing i with
  | nil => rfl
  | cons p ps ih =>
    cases i with
    | zero => rfl
    | succ n => simp [setRouteInput, ih]

theorem setRouteInput_getElem (row : List RouterPatch) (i f j : Nat) :
    (setRouteInput row i f)[j]? =
      if j = i then (row[i]?).map (fun p => ⟨f, p.to_output⟩) else row[j]? := by
  induction row generalizing i j with
  | nil =>
    simp [setRouteInput]
  | cons p ps ih =>
    cases i with
    | zero =>
      cases j with
      | zero => simp [setRouteInput]
      | succ m => simp [setRouteInput]
    | succ n =>
      cases j with
      | zero => simp [setRouteInput]
      | succ m =>
        simp only [setRouteInput, List.getElem?_cons_succ, ih, Nat.succ_eq_add_one]
        by_cases hj : m = n
        · simp [hj]
        · simp [hj, fun hc => hj (Nat.succ_injective hc)]

theorem setRouteInput_length (row : List RouterPatch) (i f : Nat) :
    (setRouteInput row i f).length = row.length := by
  have h0 := congrArg List.length (setRouteInput_map_to row i f)
  rw [List.length_map, List.length_map] at h0
  exact h0

/-- The mutation loop of `DummyRouter::update_routes`, characterized on
a row of full width: when it finishes without error, the `to_output`
column is untouched (so at-most-once occurrence is preserved), every
output mentioned by the changes holds the `from_input` of its last
change, and every other output keeps its patch. -/
theorem dummyRoutesGo_spec (changes : List RouterPatch) :
    ∀ (row : List RouterPatch) (inputs outputs : Nat) (b : Bool)
      (row2 : List RouterPatch) (happened : Bool),
    row.length = outputs →
    dummyRoutesGo row inputs outputs changes b = (row2, false, happened) →
      row2.map (fun p => p.to_output) = row.map (fun p => p.to_output)
      ∧ (∀ t f, lastChangeFor changes t = some f →
          (row2[t]?).map (fun p => p.from_input) = some f)
      ∧ (∀ t, lastChangeFor changes t = none → row2[t]? = row[t]?) := by
  induction changes with
  | nil =>
    intro row inputs outputs b row2 happened hlen h
    simp only [dummyRoutesGo, Prod.mk.injEq] at h
    obtain ⟨h1, _, _⟩ := h
    subst h1
    exact ⟨rfl, fun t f hf => by simp [lastChangeFor] at hf, fun t _ => rfl⟩
  | cons c rest ih =>
    intro row inputs outputs b row2 happened hlen h
    simp only [dummyRoutesGo] at h
    by_cases hbound : inputs ≤ c.from_input ∨ outputs ≤ c.to_output
    · rw [if_pos hbound] at h
      simp at h
    · rw [if_neg hbound] at h
      have hlen2 : (setRouteInput row c.to_output c.from_input).length = outputs := by
        rw [setRouteInput_length, hlen]
      obtain ⟨h1, h2, h3⟩ := ih (setRouteInput row c.to_output c.from_input)
        inputs outputs true row2 happened hlen2 h
      have hto : c.to_output < row.length := by
        rw [hlen]
        exact Nat.lt_of_not_le fun hc => hbound (Or.inr hc)
      refine ⟨?_, ?_, ?_⟩
      · rw [h1, setRouteInput_map_to]
      · intro t f hf
        rw [lastChangeFor_cons] at hf
        rcases hrest : lastChangeFor rest t with _ | f2
        · rw [hrest] at hf
          by_cases hc : c.to_output = t
          · rw [if_pos hc] at hf
            have hf2 : c.from_input = f := Option.some.inj hf
            have hget := setRouteInput_getElem row c.to_output c.from_input t
            rw [if_pos hc.symm] at hget
            rw [h3 t hrest, hget]
            rcases hq : row[c.to_output]? with _ | q
            · have hle := List.getElem?_eq_none_iff.mp hq
              omega
            · simp [hf2]
          · rw [if_neg hc] at hf
            exact absurd hf (by simp)
        · rw [hrest] at hf
          exact hf ▸ h2 t f2 hrest
      · intro t hn
        rw [lastChangeFor_cons] at hn
        rcases hrest : lastChangeFor rest t with _ | f2
        · rw [hrest] at hn
          by_cases hc : c.to_output = t
          · rw [if_pos hc] at hn
            exact absurd hn (by simp)
          · rw [h3 t hrest, setRouteInput_getElem row c.to_output c.from_input t,
              if_neg (fun hcon => hc hcon.symm)]
        · rw [hrest] at hn
          exact absurd hn (by simp)

/-- Claim C10.  Both merge paths for routing updates — the client cache
merge `update_routes` of the backend engine and the positional update
loop of `DummyRouter::update_routes` — are last-wins: when the merge
succeeds, a `to_output` present in both the incoming entries and the
existing list, or present more than once among the incoming entries,
ends up holding the `from_input` of the last incoming entry for it,
entries for untouched outputs are kept, and the resulting list contains
each `to_output` at most once whenever the pre-existing list did (for
the dummy router the whole `to_output` column is unchanged). -/
theorem c10_route_merge_last_wins :
    (∀ (opt : Option (List RouterPatch)) (changes : List RouterPatch)
       (maxIn maxOut : Nat) (merged : List RouterPatch),
      updateRoutes opt changes maxIn maxOut = (some merged, false) →
        (∀ t f, lastChangeFor changes t = some f → findRoute merged t = some f)
        ∧ (∀ t, lastChangeFor changes t = none →
            findRoute merged t = findRoute (opt.getD []) t)
        ∧ (((opt.getD []).map (fun p => p.to_output)).Nodup →
            (merged.map (fun p => p.to_output)).Nodup))
    ∧ (∀ (changes row : List RouterPatch) (inputs outputs : Nat) (b : Bool)
         (row2 : List RouterPatch) (happened : Bool),
      row.length = outputs →
      dummyRoutesGo row inputs outputs changes b = (row2, false, happened) →
        row2.map (fun p => p.to_output) = row.map (fun p => p.to_output)
        ∧ ((row.map (fun p => p.to_output)).Nodup →
            (row2.map (fun p => p.to_output)).Nodup)
        ∧ (∀ t f, lastChangeFor changes t = some f →
            (row2[t]?).map (fun p => p.from_input) = some f)
        ∧ (∀ t, lastChangeFor changes t = none → row2[t]? = row[t]?)) := by
  constructor
  · intro opt changes maxIn maxOut merged h
    rcases hm : mergeRoutesGo (opt.getD []) maxIn maxOut changes with _ | m
    · rw [updateRoutes, hm] at h
      simp at h
    · rw [updateRoutes, hm] at h
      obtain ⟨hmerged, -⟩ := Prod.mk.injEq .. ▸ h
      obtain rfl : m = merged := Option.some.inj hmerged
      exact mergeRoutesGo_spec changes (opt.getD []) maxIn maxOut m hm
  · intro changes row inputs outputs b row2 happened hlen h
    obtain ⟨h1, h2, h3⟩ := dummyRoutesGo_spec changes row inputs outputs b row2 happened hlen h
    exact ⟨h1, fun hnd => h1 ▸ hnd, h2, h3⟩

/-- Claim C10, witness: on the cached list `[(0→0), (0→1)]` the changes
`[(1→0), (2→0)]` (a duplicated `to_output` 0) merge to `[(2→0), (0→1)]`
— the last change wins, output 1 is untouched and `to_output`s stay
unique — and the dummy router loop updates its row the same way. -/
theorem c10_route_merge_last_wins_witness :
    findRoute [⟨2, 0⟩, ⟨0, 1⟩] 0 = some 2
    ∧ findRoute [⟨2, 0⟩, ⟨0, 1⟩] 1 = findRoute ((some [⟨0, 0⟩, ⟨0, 1⟩]).getD []) 1
    ∧ (([⟨2, 0⟩, ⟨0, 1⟩] : List RouterPatch).map (fun p => p.to_output)).Nodup
    ∧ (([⟨2, 0⟩, ⟨0, 1⟩] : List RouterPatch)[0]?).map (fun p => p.from_input) = some 2 := by
  have hclient := (c10_route_merge_last_wins.1 (some [⟨0, 0⟩, ⟨0, 1⟩])
    [⟨1, 0⟩, ⟨2, 0⟩] 3 2 [⟨2, 0⟩, ⟨0, 1⟩] (by decide))
  have hdummy := (c10_route_merge_last_wins.2 [⟨1, 0⟩, ⟨2, 0⟩] [⟨0, 0⟩, ⟨0, 1⟩]
    3 2 false [⟨2, 0⟩, ⟨0, 1⟩] true (by decide) (by decide))
  refine ⟨hclient.1 0 2 (by decide), hclient.2.1 1 (by decide),
    hclient.2.2 (by decide), hdummy.2.2.1 0 2 (by decide)⟩

theorem dropWhile_all {p : Nat → Bool} {l : List Nat} (h : ∀ c ∈ l, p c) :
    l.dropWhile p = [] := by
  induction l with
  | nil => rfl
  | cons a t ih =>
    rw [List.dropWhile_cons_of_pos (h a (List.mem_cons_self a t))]
    exact ih fun c hc => h c (List.mem_cons_of_mem a hc)

theorem dropWhile_append_cons {p : Nat → Bool} {W : List Nat} {x : Nat} {t : List Nat}
    (hW : ∀ c ∈ W, p c) (hx : ¬ p x = true) :
    (W ++ x :: t).dropWhile p = x :: t := by
  induction W with
  | nil => simp [List.dropWhile_cons_of_neg hx]
  | cons a w ih =>
    rw [List.cons_append, List.dropWhile_cons_of_pos (hW a (List.mem_cons_self a w))]
    exact ih fun c hc => hW c (List.mem_cons_of_mem a hc)

theorem multispace0_all {l : List Nat} (h : ∀ c ∈ l, isWS c) : multispace0 l = none := by
  simp [multispace0, dropWhile_all h]

theorem multispace0_append_cons {W : List Nat} {x : Nat} {t : List Nat}
    (hW : ∀ c ∈ W, isWS c) (hx : ¬ isWS x = true) :
    multispace0 (W ++ x :: t) = some (x :: t) := by
  simp [multispace0, dropWhile_append_cons hW hx]

theorem takeWhile1S_all {p : Nat → Bool} {l : List Nat} (h : ∀ c ∈ l, p c) :
    takeWhile1S p l = .incomplete := by
  cases l with
  | nil => rfl
  | cons a t =>
    simp only [takeWhile1S, h a (List.mem_cons_self a t), if_pos]
    rw [dropWhile_all h]
    rfl

theorem takeWhile1S_append_cons {p : Nat → Bool} {H : List Nat} {x : Nat} {t : List Nat}
    (hne : H ≠ []) (hall : ∀ c ∈ H, p c) (hx : ¬ p x = true) :
    takeWhile1S p (H ++ x :: t) = .done (x :: t) H := by
  cases H with
  | nil => exact absurd rfl hne
  | cons a w =>
    have ha : p a = true := hall a (List.mem_cons_self a w)
    have hdrop : ((a :: w) ++ x :: t).dropWhile p = x :: t := dropWhile_append_cons hall hx
    have htake : ((a :: w) ++ x :: t).takeWhile p = a :: w := by
      have := List.takeWhile_append_dropWhile (p := p) (l := (a :: w) ++ x :: t)
      rw [hdrop] at this
      exact (List.append_cancel_right this)
    rw [List.cons_append] at hdrop htake ⊢
    simp only [takeWhile1S, ha, if_pos, hdrop, htake]
    rfl

theorem takeWhile1S_done_inv {p : Nat → Bool} {i rem v : List Nat}
    (h : takeWhile1S p i = .done rem v) :
    i = v ++ rem ∧ v ≠ [] ∧ (∀ c ∈ v, p c)
      ∧ ∃ x tl, rem = x :: tl ∧ ¬ p x = true := by
  cases i with
  | nil => exact absurd h (by simp [takeWhile1S])
  | cons a t =>
    by_cases ha : p a = true
    · simp only [takeWhile1S, ha, if_pos] at h
      by_cases hd : ((a :: t).dropWhile p).isEmpty = true
      · rw [if_pos hd] at h
        exact absurd h (by simp)
      · rw [if_neg hd] at h
        obtain ⟨hrem, hv⟩ := And.intro (PResult.done.injEq .. ▸ h).1 (PResult.done.injEq .. ▸ h).2
        subst hrem
        subst hv
        refine ⟨(List.takeWhile_append_dropWhile p (a :: t)).symm, ?_,
          fun c hc => List.mem_takeWhile_imp hc, ?_⟩
        · simp [List.takeWhile_cons_of_pos ha]
        · rcases hdrop : (a :: t).dropWhile p with _ | ⟨x, tl⟩
          · rw [hdrop] at hd
            exact absurd rfl hd
          · refine ⟨x, tl, rfl, ?_⟩
            have hw : (a :: t).dropWhile p ≠ [] := by simp [hdrop]
            have hns := List.head_dropWhile_not p (a :: t) hw
            have h0 : ((a :: t).dropWhile p).head? = some x := by rw [hdrop]; rfl
            have h1 : ((a :: t).dropWhile p).head hw = x := by
              have h2 := List.head?_eq_head (l := (a :: t).dropWhile p) hw
              rw [h0] at h2
              exact (Option.some.inj h2).symm
            rw [h1] at hns
            simp [hns]
    · exact absurd h (by simp [takeWhile1S, ha])

theorem anyNewline_lf (t : List Nat) : anyNewline (10 :: t) = .done t [10] := by
  simp [anyNewline]

theorem anyNewline_crlf (t : List Nat) : anyNewline (13 :: 10 :: t) = .done t [13, 10] := by
  simp [anyNewline]

theorem anyNewline_cr_cons_error (d : Nat) (t : List Nat) (hd : d ≠ 10) :
    anyNewline (13 :: d :: t) = .error := by
  simp [anyNewline, hd]

theorem anyNewline_cons_error (x : Nat) (t : List Nat) (h10 : x ≠ 10) (h13 : x ≠ 13) :
    anyNewline (x :: t) = .error := by
  simp [anyNewline, h10, h13]

theorem anyNewline_done_inv {i rem v : List Nat} (h : anyNewline i = .done rem v) :
    (i = 10 :: rem ∧ v = [10]) ∨ (i = 13 :: 10 :: rem ∧ v = [13, 10]) := by
  cases i with
  | nil => exact absurd h (by simp [anyNewline])
  | cons c rest =>
    by_cases hc : c = 13
    · subst hc
      cases rest with
      | nil => exact absurd h (by simp [anyNewline])
      | cons d r =>
        by_cases hd : d = 10
        · subst hd
          rw [anyNewline_crlf] at h
          obtain ⟨h1, h2⟩ := And.intro (PResult.done.injEq .. ▸ h).1 (PResult.done.injEq .. ▸ h).2
          exact Or.inr ⟨by rw [h1], h2.symm⟩
        · exact absurd h (by rw [anyNewline_cr_cons_error d r hd]; simp)
    · by_cases hc10 : c = 10
      · subst hc10
        rw [anyNewline_lf] at h
        obtain ⟨h1, h2⟩ := And.intro (PResult.done.injEq .. ▸ h).1 (PResult.done.injEq .. ▸ h).2
        exact Or.inl ⟨by rw [h1], h2.symm⟩
      · exact absurd h (by rw [anyNewline_cons_error c rest hc10 hc]; simp)

theorem anyNewline_error_inv {i : List Nat} (h : anyNewline i = .error) :
    ∃ x rest, i = x :: rest
      ∧ ((x ≠ 10 ∧ x ≠ 13) ∨ (x = 13 ∧ ∃ y t, rest = y :: t ∧ y ≠ 10)) := by
  cases i with
  | nil => exact absurd h (by simp [anyNewline])
  | cons c rest =>
    by_cases hc : c = 13
    · subst hc
      cases rest with
      | nil => exact absurd h (by simp [anyNewline])
      | cons d r =>
        by_cases hd : d = 10
        · subst hd
          rw [anyNewline_crlf] at h
          exact absurd h (by simp)
        · exact ⟨13, d :: r, rfl, Or.inr ⟨rfl, d, r, rfl, hd⟩⟩
    · by_cases hc10 : c = 10
      · subst hc10
        rw [anyNewline_lf] at h
        exact absurd h (by simp)
      · exact ⟨c, rest, rfl, Or.inl ⟨hc10, hc⟩⟩

theorem take_head_of_pos (l : List Nat) (j : Nat) (hj : 1 ≤ j) :
    (l.take j).head? = l.head? := by
  cases l with
  | nil => simp
  | cons a t =>
    cases j with
    | zero => omega
    | succ n => simp

theorem take_tail (l : List Nat) (j : Nat) : (l.take j).tail = l.tail.take (j - 1) := by
  cases l with
  | nil => simp
  | cons a t =>
    cases j with
    | zero => simp
    | succ n => simp

theorem tuel_cons_not (c : Nat) (l : List Nat)
    (h1 : ¬(c = 10 ∧ l.head? = some 10))
    (h2 : ¬(c = 13 ∧ l.head? = some 10 ∧ l.tail.head? = some 13
        ∧ l.tail.tail.head? = some 10)) :
    takeUntilEmptyLine (c :: l) =
      match takeUntilEmptyLine l with
      | .done r h => .done r (c :: h)
      | .incomplete => .incomplete
      | .error => .error := by
  rw [takeUntilEmptyLine]
  rw [if_neg h1, if_neg h2]

/-- A strict prefix of a byte run whose first empty line sits exactly at
its end contains no empty line at all, so the scan is Incomplete. -/
theorem tuel_take_incomplete :
    ∀ (C : List Nat) (body : List Nat), takeUntilEmptyLine C = .done [] body →
    ∀ k, k < C.length → takeUntilEmptyLine (C.take k) = .incomplete := by
  intro C
  induction C with
  | nil => intro body h k hk; simp at hk
  | cons c rest ih =>
    intro body h k hk
    by_cases h1 : c = 10 ∧ rest.head? = some 10
    · obtain ⟨hc, hh⟩ := h1
      subst hc
      rcases rest with _ | ⟨d, r⟩
      · simp at hh
      · obtain rfl : d = 10 := by simpa using hh
        have hform : takeUntilEmptyLine (10 :: 10 :: r) = .done r [10] := by
          rw [takeUntilEmptyLine]
          simp
        rw [hform] at h
        obtain rfl : r = [] := (PResult.done.inj h).1
        simp only [List.length_cons, List.length_nil] at hk
        rcases k with _ | _ | k
        · decide
        · decide
        · omega
    · by_cases h2 : c = 13 ∧ rest.head? = some 10 ∧ rest.tail.head? = some 13
          ∧ rest.tail.tail.head? = some 10
      · obtain ⟨hc, hh1, hh2, hh3⟩ := h2
        subst hc
        rcases rest with _ | ⟨d1, r1⟩
        · simp at hh1
        · obtain rfl : d1 = 10 := by simpa using hh1
          rcases r1 with _ | ⟨d2, r2⟩
          · simp at hh2
          · obtain rfl : d2 = 13 := by simpa using hh2
            rcases r2 with _ | ⟨d3, r3⟩
            · simp at hh3
            · obtain rfl : d3 = 10 := by simpa using hh3
              have hform : takeUntilEmptyLine (13 :: 10 :: 13 :: 10 :: r3)
                  = .done r3 [13, 10] := by
                rw [takeUntilEmptyLine]
                simp
              rw [hform] at h
              obtain rfl : r3 = [] := (PResult.done.inj h).1
              simp only [List.length_cons, List.length_nil] at hk
              rcases k with _ | _ | _ | _ | k
              · decide
              · decide
              · decide
              · decide
              · omega
      · rw [tuel_cons_not c rest h1 h2] at h
        rcases hrest : takeUntilEmptyLine rest with ⟨r2, b2⟩ | _ | _
        · rw [hrest] at h
          have h9 : PResult.done r2 (c :: b2) = PResult.done [] body := h
          obtain rfl : r2 = [] := (PResult.done.inj h9).1
          rcases k with _ | j
          · rw [List.take_zero]
            rfl
          · have hj : j < rest.length := by
              simp only [List.length_cons] at hk
              omega
            have htail : takeUntilEmptyLine (rest.take j) = .incomplete :=
              ih b2 hrest j hj
            have hlist : (c :: rest).take (j + 1) = c :: rest.take j := by simp
            rw [hlist]
            have hc1 : ¬(c = 10 ∧ (rest.take j).head? = some 10) := by
              rcases Nat.eq_zero_or_pos j with hj0 | hjpos
              · subst hj0
                simp
              · rw [take_head_of_pos rest j hjpos]
                exact h1
            have hc2 : ¬(c = 13 ∧ (rest.take j).head? = some 10
                ∧ (rest.take j).tail.head? = some 13
                ∧ (rest.take j).tail.tail.head? = some 10) := by
              rcases Nat.lt_or_ge j 3 with hj3 | hj3
              · intro hcon
                obtain ⟨-, hx1, hx2, hx3⟩ := hcon
                rcases j with _ | _ | _ | j
                · simp at hx1
                · rw [take_tail] at hx2
                  simp at hx2
                · rw [take_tail, take_tail] at hx3
                  simp at hx3
                · omega
              · have e1 : (rest.take j).head? = rest.head? :=
                  take_head_of_pos rest j (by omega)
                have e2 : (rest.take j).tail.head? = rest.tail.head? := by
                  rw [take_tail]
                  exact take_head_of_pos rest.tail (j - 1) (by omega)
                have e3 : (rest.take j).tail.tail.head? = rest.tail.tail.head? := by
                  rw [take_tail, take_tail]
                  exact take_head_of_pos rest.tail.tail (j - 1 - 1) (by omega)
                rw [e1, e2, e3]
                exact h2
            rw [tuel_cons_not c (rest.take j) hc1 hc2, htail]
        · rw [hrest] at h
          exact absurd h (by simp)
        · rw [hrest] at h
          exact absurd h (by simp)

theorem multispace0_some_inv {b i0 : List Nat} (h : multispace0 b = some i0) :
    b = b.takeWhile isWS ++ i0 ∧ (∀ c ∈ b.takeWhile isWS, isWS c)
      ∧ ∃ x t, i0 = x :: t ∧ ¬ isWS x = true := by
  have hdef : i0 = b.dropWhile isWS ∧ ¬ (b.dropWhile isWS).isEmpty = true := by
    by_cases he : (b.dropWhile isWS).isEmpty = true
    · rw [multispace0, if_pos he] at h
      exact absurd h (by simp)
    · rw [multispace0, if_neg he] at h
      exact ⟨(Option.some.inj h).symm, he⟩
  obtain ⟨hi0, hne⟩ := hdef
  subst hi0
  refine ⟨(List.takeWhile_append_dropWhile isWS b).symm,
    fun c hc => List.mem_takeWhile_imp hc, ?_⟩
  rcases hdrop : b.dropWhile isWS with _ | ⟨x, t⟩
  · rw [hdrop] at hne
    exact absurd rfl hne
  · have hw : b.dropWhile isWS ≠ [] := by simp [hdrop]
    have hns := List.head_dropWhile_not isWS b hw
    have h0 : (b.dropWhile isWS).head? = some x := by rw [hdrop]; rfl
    have h1 : (b.dropWhile isWS).head hw = x := by
      have h2 := List.head?_eq_head (l := b.dropWhile isWS) hw
      rw [h0] at h2
      exact (Option.some.inj h2).symm
    rw [h1] at hns
    exact ⟨x, t, rfl, by simp [hns]⟩

theorem bodyAlt_nil : bodyAlt [] = .incomplete := by decide

theorem bodyAlt_cr : bodyAlt [13] = .incomplete := by decide

theorem bodyAlt_of_error {l : List Nat} (h : anyNewline l = .error) :
    bodyAlt l = takeUntilEmptyLine l := by
  unfold bodyAlt
  rw [h]

theorem liftBody_done_rem {i3 rem : List Nat} {r : PResult VideohubMessage}
    {msg : VideohubMessage} (h : liftBody i3 r = .done rem msg) : rem = i3 := by
  cases r with
  | done b m0 => exact ((PResult.done.inj h).1).symm
  | incomplete => exact absurd h (by simp [liftBody])
  | error => exact absurd h (by simp [liftBody])

theorem dispatchHeader_done_rem {sh th body i3 rem : List Nat} {msg : VideohubMessage}
    (h : dispatchHeader sh th body i3 = .done rem msg) : rem = i3 :=
  liftBody_done_rem h

theorem parseSingleBlock_eq_of_ms {p i0 : List Nat} (h : multispace0 p = some i0) :
    parseSingleBlock p = (takeUntilNewline i0).bind fun i1 header =>
      (anyNewline i1).bind fun i2 _ =>
      (bodyAlt i2).bind fun i3 body =>
      dispatchHeader (upper (trimAsciiEnd header)) (trimAsciiEnd header) body i3 := by
  unfold parseSingleBlock
  rw [h]

theorem parse_incomplete_at_ms {p : List Nat} (h : multispace0 p = none) :
    parseSingleBlock p = .incomplete := by
  unfold parseSingleBlock
  rw [h]

theorem parse_incomplete_at_header {p i0 : List Nat} (h : multispace0 p = some i0)
    (h2 : takeUntilNewline i0 = .incomplete) : parseSingleBlock p = .incomplete := by
  rw [parseSingleBlock_eq_of_ms h, h2]
  rfl

theorem parse_incomplete_at_nl {p i0 i1 H : List Nat} (h : multispace0 p = some i0)
    (h2 : takeUntilNewline i0 = .done i1 H) (h3 : anyNewline i1 = .incomplete) :
    parseSingleBlock p = .incomplete := by
  rw [parseSingleBlock_eq_of_ms h, h2]
  simp only [PResult.bind]
  rw [h3]

theorem parse_incomplete_at_body {p i0 i1 i2 H nl : List Nat} (h : multispace0 p = some i0)
    (h2 : takeUntilNewline i0 = .done i1 H) (h3 : anyNewline i1 = .done i2 nl)
    (h4 : bodyAlt i2 = .incomplete) : parseSingleBlock p = .incomplete := by
  rw [parseSingleBlock_eq_of_ms h, h2]
  simp only [PResult.bind]
  rw [h3]
  simp only [PResult.bind]
  rw [h4]

theorem bodyAlt_done_inv {i2 r body : List Nat} (h : bodyAlt i2 = .done r body) :
    anyNewline i2 = .done r body
      ∨ (anyNewline i2 = .error ∧ takeUntilEmptyLine i2 = .done r body) := by
  unfold bodyAlt at h
  rcases ha : anyNewline i2 with ⟨r2, v2⟩ | _ | _
  · rw [ha] at h
    exact Or.inl h
  · rw [ha] at h
    exact absurd h (by simp)
  · rw [ha] at h
    exact Or.inr ⟨rfl, h⟩

/-- Truncating the body region of a block whose blank-line terminator
sits exactly at its end always leaves the body scan Incomplete. -/
theorem bodyAlt_take_incomplete {i2 body : List Nat} (hba : bodyAlt i2 = .done [] body) :
    ∀ j, 1 ≤ j → j < i2.length → bodyAlt (i2.take j) = .incomplete := by
  intro j hj1 hjlen
  rcases bodyAlt_done_inv hba with hdone | ⟨herr, htuel⟩
  · rcases anyNewline_done_inv hdone with ⟨hi2, -⟩ | ⟨hi2, -⟩
    · rw [hi2] at hjlen
      simp at hjlen
      omega
    · rw [hi2] at hjlen ⊢
      simp only [List.length_cons, List.length_nil] at hjlen
      obtain rfl : j = 1 := by omega
      exact bodyAlt_cr
  · obtain ⟨x, rest, hi2, hcase⟩ := anyNewline_error_inv herr
    rcases hcase with ⟨h10, h13⟩ | ⟨hx13, y, t, hrest, hy⟩
    · have htake : i2.take j = x :: rest.take (j - 1) := by
        rw [hi2]
        rcases j with _ | j2
        · omega
        · rw [List.take_succ_cons]
          rfl
      rw [htake, bodyAlt_of_error (anyNewline_cons_error x (rest.take (j - 1)) h10 h13),
        ← htake]
      exact tuel_take_incomplete i2 body htuel j hjlen
    · subst hx13
      subst hrest
      rcases j with _ | _ | j3
      · omega
      · have htake : i2.take 1 = [13] := by rw [hi2]; rfl
        rw [htake]
        exact bodyAlt_cr
      · have htake : i2.take (j3 + 2) = 13 :: y :: t.take j3 := by
          rw [hi2, List.take_succ_cons, List.take_succ_cons]
        rw [htake, bodyAlt_of_error (anyNewline_cr_cons_error y (t.take j3) hy), ← htake]
        exact tuel_take_incomplete i2 body htuel (j3 + 2) hjlen

/-- Claim C3, amended.  For every valid block `b` (one that parses
completely to a message) and every split point `0 ≤ k < len(b)`,
`parse_single_block` on the prefix `b[:k]` yields Incomplete — never an
Error and never a Message — the decoder maps that Incomplete to "no
item, buffer untouched" (the read cursor does not advance), and parsing
resumed on the full bytes `b` produces the same message as parsing `b`
whole. -/
theorem c3_streaming_prefix_incomplete (b : List Nat) (m : VideohubMessage)
    (h : parseSingleBlock b = .done [] m) :
    ∀ k, k < b.length →
      parseSingleBlock (b.take k) = .incomplete
      ∧ decode (b.take k) = .ok (b.take k, none)
      ∧ parseSingleBlock b = .done [] m := by
  have horig := h
  rcases hms : multispace0 b with _ | i0
  · rw [parse_incomplete_at_ms hms] at h
    exact absurd h (by simp)
  rw [parseSingleBlock_eq_of_ms hms] at h
  rcases htn : takeUntilNewline i0 with ⟨i1, H⟩ | _ | _
  rotate_left
  · rw [htn] at h
    simp [PResult.bind] at h
  · rw [htn] at h
    simp [PResult.bind] at h
  rw [htn] at h
  simp only [PResult.bind] at h
  rcases han : anyNewline i1 with ⟨i2, nl⟩ | _ | _
  rotate_left
  · rw [han] at h
    simp [PResult.bind] at h
  · rw [han] at h
    simp [PResult.bind] at h
  rw [han] at h
  simp only [PResult.bind] at h
  rcases hba : bodyAlt i2 with ⟨i3, body⟩ | _ | _
  rotate_left
  · rw [hba] at h
    simp [PResult.bind] at h
  · rw [hba] at h
    simp [PResult.bind] at h
  rw [hba] at h
  simp only [PResult.bind] at h
  obtain rfl : i3 = [] := (dispatchHeader_done_rem h).symm
  obtain ⟨hbW, hWall, x0, t0, hi0s, hx0⟩ := multispace0_some_inv hms
  generalize hWdef : b.takeWhile isWS = W at hbW hWall
  have htn2 : takeWhile1S notNL i0 = .done i1 H := htn
  obtain ⟨hi0eq, hHne, hHall, y, ty, hi1s, hy⟩ := takeWhile1S_done_inv htn2
  rcases H with _ | ⟨h0, H2⟩
  · exact absurd rfl hHne
  have hh0 : h0 = x0 := by
    have hcat : h0 :: (H2 ++ i1) = x0 :: t0 := by
      rw [← List.cons_append, ← hi0eq]
      exact hi0s
    exact (List.cons.inj hcat).1
  have hx0h : ¬ isWS h0 = true := hh0 ▸ hx0
  intro k hk
  have hbL : b.length = W.length + (H2.length + 1) + i1.length := by
    rw [hbW, hi0eq]
    simp [List.length_append]
    omega
  have key : parseSingleBlock (b.take k) = .incomplete := by
    by_cases hkW : k ≤ W.length
    · have htk : b.take k = W.take k := by
        rw [hbW, List.take_append_eq_append_take, Nat.sub_eq_zero_of_le hkW,
          List.take_zero, List.append_nil]
      rw [htk]
      exact parse_incomplete_at_ms
        (multispace0_all fun c hc => hWall c (List.take_subset k W hc))
    · push_neg at hkW
      have htk0 : b.take k = W ++ i0.take (k - W.length) := by
        rw [hbW, List.take_append_eq_append_take, List.take_of_length_le (le_of_lt hkW)]
      by_cases hkH : k - W.length ≤ (h0 :: H2).length
      · have htak : i0.take (k - W.length) = (h0 :: H2).take (k - W.length) := by
          rw [hi0eq, List.take_append_eq_append_take, Nat.sub_eq_zero_of_le hkH,
            List.take_zero, List.append_nil]
        obtain ⟨j, hj⟩ : ∃ j, k - W.length = j + 1 := ⟨k - W.length - 1, by omega⟩
        have hcons : (h0 :: H2).take (k - W.length) = h0 :: H2.take j := by
          rw [hj, List.take_succ_cons]
        rw [htk0, htak, hcons]
        have hallsub : ∀ c ∈ h0 :: H2.take j, notNL c := by
          intro c hc
          rcases List.mem_cons.mp hc with rfl | hc2
          · exact hHall c (List.mem_cons_self c H2)
          · exact hHall c (List.mem_cons_of_mem h0 (List.take_subset j H2 hc2))
        exact parse_incomplete_at_header (multispace0_append_cons hWall hx0h)
          (takeWhile1S_all hallsub)
      · push_neg at hkH
        have htak2 : i0.take (k - W.length)
            = (h0 :: H2) ++ i1.take (k - W.length - (h0 :: H2).length) := by
          rw [hi0eq, List.take_append_eq_append_take, List.take_of_length_le (le_of_lt hkH)]
        have hk21 : 1 ≤ k - W.length - (h0 :: H2).length := by
          simp only [List.length_cons] at hkH ⊢
          omega
        have hms2 : ∀ X : List Nat,
            multispace0 (W ++ ((h0 :: H2) ++ X)) = some ((h0 :: H2) ++ X) := by
          intro X
          have hstep := multispace0_append_cons (t := H2 ++ X) hWall hx0h
          simpa [List.cons_append] using hstep
        have htw2 : ∀ (z : Nat) (zs : List Nat), ¬ notNL z = true →
            takeWhile1S notNL ((h0 :: H2) ++ z :: zs) = .done (z :: zs) (h0 :: H2) :=
          fun z zs hz => takeWhile1S_append_cons (by simp) hHall hz
        rcases anyNewline_done_inv han with ⟨hi1, hnl⟩ | ⟨hi1, hnl⟩
        · have hi1len : i1.length = 1 + i2.length := by
            rw [hi1]
            simp
            omega
          by_cases hk2a : k - W.length - (h0 :: H2).length = 1
          · have htX : i1.take (k - W.length - (h0 :: H2).length) = [10] := by
              rw [hk2a, hi1]
              rfl
            rw [htk0, htak2, htX]
            exact parse_incomplete_at_body (hms2 [10]) (htw2 10 [] (by decide))
              (anyNewline_lf []) bodyAlt_nil
          · obtain ⟨j, hj⟩ : ∃ j, k - W.length - (h0 :: H2).length = j + 1 :=
              ⟨k - W.length - (h0 :: H2).length - 1, by omega⟩
            have hj1 : 1 ≤ j := by omega
            have hjlen : j < i2.length := by
              simp only [List.length_cons] at hbL hkH hj ⊢
              omega
            have htX : i1.take (k - W.length - (h0 :: H2).length) = 10 :: i2.take j := by
              rw [hj, hi1, List.take_succ_cons]
            rw [htk0, htak2, htX]
            exact parse_incomplete_at_body (hms2 (10 :: i2.take j))
              (htw2 10 (i2.take j) (by decide)) (anyNewline_lf (i2.take j))
              (bodyAlt_take_incomplete hba j hj1 hjlen)
        · have hi1len : i1.length = 2 + i2.length := by
            rw [hi1]
            simp
            omega
          by_cases hk2a : k - W.length - (h0 :: H2).length = 1
          · have htX : i1.take (k - W.length - (h0 :: H2).length) = [13] := by
              rw [hk2a, hi1]
              rfl
            rw [htk0, htak2, htX]
            exact parse_incomplete_at_nl (hms2 [13]) (htw2 13 [] (by decide))
              (by decide)
          · by_cases hk2b : k - W.length - (h0 :: H2).length = 2
            · have htX : i1.take (k - W.length - (h0 :: H2).length) = [13, 10] := by
                rw [hk2b, hi1]
                rfl
              rw [htk0, htak2, htX]
              exact parse_incomplete_at_body (hms2 [13, 10]) (htw2 13 [10] (by decide))
                (anyNewline_crlf []) bodyAlt_nil
            · obtain ⟨j, hj⟩ : ∃ j, k - W.length - (h0 :: H2).length = j + 2 :=
                ⟨k - W.length - (h0 :: H2).length - 2, by omega⟩
              have hj1 : 1 ≤ j := by omega
              have hjlen : j < i2.length := by
                simp only [List.length_cons] at hbL hkH hj ⊢
                omega
              have htX : i1.take (k - W.length - (h0 :: H2).length)
                  = 13 :: 10 :: i2.take j := by
                rw [hj, hi1, List.take_succ_cons, List.take_succ_cons]
              rw [htk0, htak2, htX]
              exact parse_incomplete_at_body (hms2 (13 :: 10 :: i2.take j))
                (htw2 13 (10 :: i2.take j) (by decide))
                (anyNewline_crlf (i2.take j))
                (bodyAlt_take_incomplete hba j hj1 hjlen)
  refine ⟨key, ?_, horig⟩
  unfold decode
  rw [key]

/-- Claim C3, counterexample.  At the split point `k = len(b)` the
"prefix" is the whole valid block, and parsing it yields the message —
not Incomplete — so the claim's range `0 ≤ k ≤ len(b)` is off by one. -/
theorem c3_counterexample_full_prefix :
    (bytes ("PING:\n\n")).take (bytes ("PING:\n\n")).length = bytes ("PING:\n\n")
    ∧ parseSingleBlock (bytes ("PING:\n\n")) = .done [] .Ping
    ∧ parseSingleBlock ((bytes ("PING:\n\n")).take (bytes ("PING:\n\n")).length)
        ≠ .incomplete := by
  refine ⟨by decide, by decide, by decide⟩

/-- Claim C3, witness: a three-byte prefix of `PING:\n\n` is Incomplete
and leaves the decode buffer untouched. -/
theorem c3_streaming_prefix_incomplete_witness :
    parseSingleBlock ((bytes ("PING:\n\n")).take 3) = .incomplete
    ∧ decode ((bytes ("PING:\n\n")).take 3) = .ok ((bytes ("PING:\n\n")).take 3, none) := by
  have h := c3_streaming_prefix_incomplete (bytes ("PING:\n\n")) .Ping (by decide) 3 (by decide)
  exact ⟨h.1, h.2.1⟩

theorem lower_length (l : List Nat) : (lower l).length = l.length := List.length_map l lowerByte

theorem lower_append (l1 l2 : List Nat) : lower (l1 ++ l2) = lower l1 ++ lower l2 :=
  List.map_append lowerByte l1 l2

theorem lower_cons (c : Nat) (l : List Nat) : lower (c :: l) = lowerByte c :: lower l := rfl

theorem lowerByte_idem (c : Nat) : lowerByte (lowerByte c) = lowerByte c := by
  unfold lowerByte
  split_ifs <;> omega

theorem lower_idem (l : List Nat) : lower (lower l) = lower l := by
  unfold lower
  rw [List.map_map]
  exact List.map_congr_left fun c _ => lowerByte_idem c

theorem upperByte_lowerByte (c : Nat) : upperByte (lowerByte c) = upperByte c := by
  unfold lowerByte upperByte
  split_ifs <;> omega

theorem upper_lower (l : List Nat) : upper (lower l) = upper l := by
  unfold upper lower
  rw [List.map_map]
  exact List.map_congr_left fun c _ => upperByte_lowerByte c

theorem isWS_lower (c : Nat) : isWS (lowerByte c) = isWS c := by
  by_cases h : 65 ≤ c ∧ c ≤ 90
  · rw [lowerByte, if_pos h]
    have hl : isWS (c + 32) = false := by
      simp only [isWS, Bool.or_eq_false_iff, decide_eq_false_iff_not]
      omega
    have hr : isWS c = false := by
      simp only [isWS, Bool.or_eq_false_iff, decide_eq_false_iff_not]
      omega
    rw [hl, hr]
  · rw [lowerByte, if_neg h]

theorem isSpTab_lower (c : Nat) : isSpTab (lowerByte c) = isSpTab c := by
  by_cases h : 65 ≤ c ∧ c ≤ 90
  · rw [lowerByte, if_pos h]
    have hl : isSpTab (c + 32) = false := by
      simp only [isSpTab, Bool.or_eq_false_iff, decide_eq_false_iff_not]
      omega
    have hr : isSpTab c = false := by
      simp only [isSpTab, Bool.or_eq_false_iff, decide_eq_false_iff_not]
      omega
    rw [hl, hr]
  · rw [lowerByte, if_neg h]

theorem isDigit_lower (c : Nat) : isDigit (lowerByte c) = isDigit c := by
  by_cases h : 65 ≤ c ∧ c ≤ 90
  · rw [lowerByte, if_pos h]
    have hl : isDigit (c + 32) = false := by
      simp only [isDigit, Bool.and_eq_false_iff, decide_eq_false_iff_not]
      omega
    have hr : isDigit c = false := by
      simp only [isDigit, Bool.and_eq_false_iff, decide_eq_false_iff_not]
      omega
    rw [hl, hr]
  · rw [lowerByte, if_neg h]

theorem notNL_lower (c : Nat) : notNL (lowerByte c) = notNL c := by
  by_cases h : 65 ≤ c ∧ c ≤ 90
  · rw [lowerByte, if_pos h]
    have hl : notNL (c + 32) = true := by
      simp only [notNL, Bool.not_eq_true', Bool.or_eq_false_iff, decide_eq_false_iff_not]
      omega
    have hr : notNL c = true := by
      simp only [notNL, Bool.not_eq_true', Bool.or_eq_false_iff, decide_eq_false_iff_not]
      omega
    rw [hl, hr]
  · rw [lowerByte, if_neg h]

theorem isAsciiWS_lower (c : Nat) : isAsciiWS (lowerByte c) = isAsciiWS c := by
  by_cases h : 65 ≤ c ∧ c ≤ 90
  · rw [lowerByte, if_pos h]
    have hl : isAsciiWS (c + 32) = false := by
      simp only [isAsciiWS, Bool.or_eq_false_iff, decide_eq_false_iff_not]
      omega
    have hr : isAsciiWS c = false := by
      simp only [isAsciiWS, Bool.or_eq_false_iff, decide_eq_false_iff_not]
      omega
    rw [hl, hr]
  · rw [lowerByte, if_neg h]

theorem lowerByte_eq_ten (c : Nat) : lowerByte c = 10 ↔ c = 10 := by
  unfold lowerByte
  split_ifs <;> omega

theorem lowerByte_eq_thirteen (c : Nat) : lowerByte c = 13 ↔ c = 13 := by
  unfold lowerByte
  split_ifs <;> omega

theorem lowerByte_eq_colon (c : Nat) : (!(lowerByte c = 58)) = (!(c = 58)) := by
  unfold lowerByte
  split_ifs with h
  · have h1 : ¬ c + 32 = 58 := by omega
    have h2 : ¬ c = 58 := by omega
    simp [h1, h2]
  · rfl

theorem takeWhile_lower {p : Nat → Bool} (hp : ∀ c, p (lowerByte c) = p c) (l : List Nat) :
    (lower l).takeWhile p = lower (l.takeWhile p) := by
  induction l with
  | nil => rfl
  | cons c t ih =>
    rw [lower_cons]
    by_cases hc : p c = true
    · rw [List.takeWhile_cons_of_pos (by rw [hp c]; exact hc),
        List.takeWhile_cons_of_pos hc, lower_cons, ih]
    · rw [List.takeWhile_cons_of_neg (by rw [hp c]; exact hc),
        List.takeWhile_cons_of_neg hc]
      rfl

theorem dropWhile_lower {p : Nat → Bool} (hp : ∀ c, p (lowerByte c) = p c) (l : List Nat) :
    (lower l).dropWhile p = lower (l.dropWhile p) := by
  induction l with
  | nil => rfl
  | cons c t ih =>
    rw [lower_cons]
    by_cases hc : p c = true
    · rw [List.dropWhile_cons_of_pos (by rw [hp c]; exact hc),
        List.dropWhile_cons_of_pos hc, ih]
    · rw [List.dropWhile_cons_of_neg (by rw [hp c]; exact hc),
        List.dropWhile_cons_of_neg hc]
      rfl

theorem lower_reverse (l : List Nat) : lower l.reverse = (lower l).reverse :=
  List.map_reverse lowerByte l

theorem trimAsciiEnd_lower (l : List Nat) : trimAsciiEnd (lower l) = lower (trimAsciiEnd l) := by
  unfold trimAsciiEnd
  rw [← lower_reverse, dropWhile_lower isAsciiWS_lower, lower_reverse]

theorem trimAscii_lower (l : List Nat) : trimAscii (lower l) = lower (trimAscii l) := by
  unfold trimAscii
  rw [dropWhile_lower isAsciiWS_lower, trimAsciiEnd_lower]

theorem lower_eq_nil (l : List Nat) : (lower l = []) ↔ l = [] := by
  cases l <;> simp [lower]

/-- Map a parser result on raw bytes through ASCII lowercasing. -/
def lowerPR (r : PResult (List Nat)) : PResult (List Nat) :=
  match r with
  | .done rem v => .done (lower rem) (lower v)
  | .incomplete => .incomplete
  | .error => .error

/-- Map a numeric parser result through ASCII lowercasing. -/
def lowerPRN (r : PResult Nat) : PResult Nat :=
  match r with
  | .done rem v => .done (lower rem) v
  | .incomplete => .incomplete
  | .error => .error

theorem multispace0_lower (l : List Nat) :
    multispace0 (lower l) = (multispace0 l).map lower := by
  unfold multispace0
  rw [dropWhile_lower isWS_lower]
  by_cases he : (l.dropWhile isWS).isEmpty = true
  · have : l.dropWhile isWS = [] := by simpa using he
    rw [this]
    rfl
  · have h1 : l.dropWhile isWS ≠ [] := by simpa using he
    have h2 : ¬ (lower (l.dropWhile isWS)).isEmpty = true := by
      simp only [List.isEmpty_iff]
      rw [lower_eq_nil]
      exact h1
    rw [if_neg h2, if_neg (by simpa using h1)]
    rfl

theorem takeWhile1S_cons (p : Nat → Bool) (c : Nat) (t : List Nat) :
    takeWhile1S p (c :: t) =
      if p c = true then
        (if ((c :: t).dropWhile p).isEmpty = true then .incomplete
         else .done ((c :: t).dropWhile p) ((c :: t).takeWhile p))
      else .error := rfl

theorem takeWhile1S_lower {p : Nat → Bool} (hp : ∀ c, p (lowerByte c) = p c) (l : List Nat) :
    takeWhile1S p (lower l) = lowerPR (takeWhile1S p l) := by
  cases l with
  | nil => rfl
  | cons c t =>
    rw [lower_cons, takeWhile1S_cons, takeWhile1S_cons, hp c]
    by_cases hc : p c = true
    · rw [if_pos hc, if_pos hc]
      rw [← lower_cons, dropWhile_lower hp, takeWhile_lower hp]
      by_cases he : ((c :: t).dropWhile p).isEmpty = true
      · have h0 : (c :: t).dropWhile p = [] := by simpa using he
        rw [h0]
        rfl
      · have h1 : (c :: t).dropWhile p ≠ [] := by simpa using he
        have h2 : ¬ (lower ((c :: t).dropWhile p)).isEmpty = true := by
          simp only [List.isEmpty_iff]
          rw [lower_eq_nil]
          exact h1
        rw [if_neg h2, if_neg (by simpa using h1)]
        rfl
    · rw [if_neg hc, if_neg hc]
      rfl

theorem lower_headq (l : List Nat) : (lower l).head? = l.head?.map lowerByte := by
  cases l <;> rfl

theorem lower_tail (l : List Nat) : (lower l).tail = lower l.tail := by
  cases l <;> rfl

theorem headq_lower_eq_ten (l : List Nat) :
    ((lower l).head? = some 10) ↔ (l.head? = some 10) := by
  rw [lower_headq]
  cases hl : l.head? with
  | none => simp
  | some x => simp [lowerByte_eq_ten]

theorem headq_lower_eq_thirteen (l : List Nat) :
    ((lower l).head? = some 13) ↔ (l.head? = some 13) := by
  rw [lower_headq]
  cases hl : l.head? with
  | none => simp
  | some x => simp [lowerByte_eq_thirteen]

theorem lowerByte_ten : lowerByte 10 = 10 := rfl

theorem lowerByte_thirteen : lowerByte 13 = 13 := rfl

theorem anyNewline_cons (c : Nat) (rest : List Nat) :
    anyNewline (c :: rest) =
      if c = 13 then
        (match rest with
         | [] => .incomplete
         | d :: r => if d = 10 then .done r [13, 10] else .error)
      else if c = 10 then .done rest [10]
      else .error := rfl

theorem anyNewline_lower (l : List Nat) : anyNewline (lower l) = lowerPR (anyNewline l) := by
  cases l with
  | nil => rfl
  | cons c rest =>
    rw [lower_cons, anyNewline_cons, anyNewline_cons]
    by_cases h13 : c = 13
    · rw [if_pos ((lowerByte_eq_thirteen c).mpr h13), if_pos h13]
      cases rest with
      | nil => rfl
      | cons d r =>
        rw [lower_cons]
        show (if lowerByte d = 10 then PResult.done (lower r) [13, 10] else .error)
          = lowerPR (if d = 10 then .done r [13, 10] else .error)
        by_cases hd : d = 10
        · rw [if_pos ((lowerByte_eq_ten d).mpr hd), if_pos hd]
          rfl
        · rw [if_neg fun hc => hd ((lowerByte_eq_ten d).mp hc), if_neg hd]
          rfl
    · rw [if_neg fun hc => h13 ((lowerByte_eq_thirteen c).mp hc), if_neg h13]
      by_cases h10 : c = 10
      · rw [if_pos ((lowerByte_eq_ten c).mpr h10), if_pos h10]
        rfl
      · rw [if_neg fun hc => h10 ((lowerByte_eq_ten c).mp hc), if_neg h10]
        rfl

theorem tuel_cons (c : Nat) (rest : List Nat) :
    takeUntilEmptyLine (c :: rest) =
      if c = 10 ∧ rest.head? = some 10 then .done rest.tail [10]
      else if c = 13 ∧ rest.head? = some 10 ∧ rest.tail.head? = some 13
          ∧ rest.tail.tail.head? = some 10 then
        .done rest.tail.tail.tail [13, 10]
      else
        match takeUntilEmptyLine rest with
        | .done r h => .done r (c :: h)
        | .incomplete => .incomplete
        | .error => .error := by
  rw [takeUntilEmptyLine]

theorem tuel_lower (l : List Nat) :
    takeUntilEmptyLine (lower l) = lowerPR (takeUntilEmptyLine l) := by
  induction l with
  | nil => rfl
  | cons c rest ih =>
    rw [lower_cons, tuel_cons, tuel_cons]
    have hc1 : (lowerByte c = 10 ∧ (lower rest).head? = some 10)
        ↔ (c = 10 ∧ rest.head? = some 10) := by
      rw [lowerByte_eq_ten, headq_lower_eq_ten]
    have hc2 : (lowerByte c = 13 ∧ (lower rest).head? = some 10
          ∧ (lower rest).tail.head? = some 13 ∧ (lower rest).tail.tail.head? = some 10)
        ↔ (c = 13 ∧ rest.head? = some 10 ∧ rest.tail.head? = some 13
          ∧ rest.tail.tail.head? = some 10) := by
      rw [lowerByte_eq_thirteen, headq_lower_eq_ten rest, lower_tail rest,
        headq_lower_eq_thirteen rest.tail, lower_tail rest.tail,
        headq_lower_eq_ten rest.tail.tail]
    by_cases h1 : c = 10 ∧ rest.head? = some 10
    · rw [if_pos (hc1.mpr h1), if_pos h1, lower_tail]
      rfl
    · rw [if_neg fun hc => h1 (hc1.mp hc), if_neg h1]
      by_cases h2 : c = 13 ∧ rest.head? = some 10 ∧ rest.tail.head? = some 13
          ∧ rest.tail.tail.head? = some 10
      · rw [if_pos (hc2.mpr h2), if_pos h2, lower_tail, lower_tail, lower_tail]
        rfl
      · rw [if_neg fun hc => h2 (hc2.mp hc), if_neg h2, ih]
        rcases takeUntilEmptyLine rest with ⟨r, h⟩ | _ | _ <;> rfl

theorem bodyAlt_lower (l : List Nat) : bodyAlt (lower l) = lowerPR (bodyAlt l) := by
  unfold bodyAlt
  rw [anyNewline_lower]
  rcases anyNewline l with ⟨r, v⟩ | _ | _
  · rfl
  · rfl
  · exact tuel_lower l

theorem lower_of_digits {ds : List Nat} (h : ∀ c ∈ ds, isDigit c = true) : lower ds = ds := by
  unfold lower
  have h2 : ∀ c ∈ ds, lowerByte c = id c := by
    intro c hc
    have hd := h c hc
    simp only [isDigit, Bool.and_eq_true, decide_eq_true_eq] at hd
    unfold lowerByte
    rw [if_neg (by omega)]
    rfl
  rw [List.map_congr_left h2, List.map_id]

theorem parseU32_lower (l : List Nat) : parseU32 (lower l) = lowerPRN (parseU32 l) := by
  unfold parseU32
  rw [takeWhile_lower isDigit_lower, dropWhile_lower isDigit_lower,
    lower_of_digits fun c hc => List.mem_takeWhile_imp hc]
  by_cases he : (l.takeWhile isDigit).isEmpty = true
  · rw [if_pos he, if_pos he]
    rfl
  · rw [if_neg he, if_neg he]
    by_cases hv : digitsVal (l.takeWhile isDigit) < 4294967296
    · rw [if_pos hv, if_pos hv]
      rfl
    · rw [if_neg hv, if_neg hv]
      rfl

theorem takeUntilColon_lower (l : List Nat) :
    takeUntilColon (lower l) = lowerPR (takeUntilColon l) := by
  unfold takeUntilColon
  rw [dropWhile_lower lowerByte_eq_colon, takeWhile_lower lowerByte_eq_colon]
  by_cases he : (l.dropWhile fun c => !(c = 58)).isEmpty = true
  · have h0 : (l.dropWhile fun c => !(c = 58)) = [] := by simpa using he
    rw [h0]
    rfl
  · have h1 : (l.dropWhile fun c => !(c = 58)) ≠ [] := by simpa using he
    have h2 : ¬ (lower (l.dropWhile fun c => !(c = 58))).isEmpty = true := by
      simp only [List.isEmpty_iff]
      rw [lower_eq_nil]
      exact h1
    rw [if_neg h2, if_neg (by simpa using h1)]
    rfl

theorem lowerByte_eq_colon_iff (c : Nat) : lowerByte c = 58 ↔ c = 58 := by
  unfold lowerByte
  split_ifs <;> omega

theorem tagS_colon_lower (i : List Nat) : tagS [58] (lower i) = lowerPR (tagS [58] i) := by
  cases i with
  | nil => rfl
  | cons c t =>
    unfold tagS
    have hlen : (lower (c :: t)).length = (c :: t).length := lower_length (c :: t)
    rw [hlen]
    have hnl : ¬ (c :: t).length < ([58] : List Nat).length := by simp
    rw [if_neg hnl, if_neg hnl]
    have htake : (lower (c :: t)).take 1 = [lowerByte c] := by rw [lower_cons]; rfl
    have htake2 : (c :: t).take 1 = [c] := rfl
    show (if (lower (c :: t)).take ([58] : List Nat).length = [58] then _ else _) = _
    rw [show ([58] : List Nat).length = 1 from rfl, htake, htake2]
    by_cases hc : c = 58
    · rw [if_pos (by rw [hc]; rfl), if_pos (by rw [hc])]
      show PResult.done ((lower (c :: t)).drop 1) [58] = _
      rw [lower_cons]
      rfl
    · have hc2 : ¬ ([lowerByte c] : List Nat) = [58] := by
        intro hcon
        exact hc ((lowerByte_eq_colon_iff c).mp (by simpa using hcon))
      rw [if_neg hc2, if_neg (by simpa using hc)]
      rfl

theorem lower_take (l : List Nat) (n : Nat) : (lower l).take n = lower (l.take n) :=
  (List.map_take lowerByte l n).symm

theorem lower_drop (l : List Nat) (n : Nat) : (lower l).drop n = lower (l.drop n) :=
  (List.map_drop lowerByte l n).symm

theorem tagNoCaseS_lower (t i : List Nat) :
    tagNoCaseS t (lower i) = lowerPR (tagNoCaseS t i) := by
  unfold tagNoCaseS
  rw [lower_length]
  by_cases hl : i.length < t.length
  · by_cases he : lower i = lower (t.take i.length)
    · simp [hl, lowerPR, lower_idem, he]
    · simp [hl, lowerPR, lower_idem, he]
  · by_cases he : lower (i.take t.length) = lower t
    · simp [hl, lowerPR, lower_idem, lower_take, lower_drop, he]
    · simp [hl, lowerPR, lower_idem, lower_take, he]

/-- Map a key/value parser result through ASCII lowercasing. -/
def lowerPRKV (r : PResult (List Nat × List Nat)) : PResult (List Nat × List Nat) :=
  match r with
  | .done rem kv => .done (lower rem) (lower kv.1, lower kv.2)
  | .incomplete => .incomplete
  | .error => .error

theorem parseKVLine_lower (i : List Nat) :
    parseKVLine (lower i) = lowerPRKV (parseKVLine i) := by
  unfold parseKVLine
  rw [takeUntilColon_lower]
  rcases h1 : takeUntilColon i with ⟨i1, k⟩ | _ | _
  rotate_left
  · rfl
  · rfl
  simp only [lowerPR, PResult.bind]
  rw [tagS_colon_lower]
  rcases h2 : tagS [58] i1 with ⟨i2, c⟩ | _ | _
  rotate_left
  · rfl
  · rfl
  simp only [lowerPR, PResult.bind]
  rw [show space1 (lower i2) = lowerPR (space1 i2) from takeWhile1S_lower isSpTab_lower i2]
  rcases h3 : space1 i2 with ⟨i3, s⟩ | _ | _
  rotate_left
  · rfl
  · rfl
  simp only [lowerPR, PResult.bind]
  rw [show takeUntilNewline (lower i3) = lowerPR (takeUntilNewline i3) from
    takeWhile1S_lower notNL_lower i3]
  rcases h4 : takeUntilNewline i3 with ⟨i4, v⟩ | _ | _
  rotate_left
  · rfl
  · rfl
  simp only [lowerPR, PResult.bind]
  rw [anyNewline_lower]
  rcases h5 : anyNewline i4 with ⟨i5, nlv⟩ | _ | _
  rotate_left
  · rfl
  · rfl
  simp only [lowerPR, PResult.bind]
  rw [trimAscii_lower, trimAsciiEnd_lower]
  rfl

/-- Map a body line step through ASCII lowercasing with an item
converter. -/
def lowerLS {α : Type} (conv : α → α) : LineStep α → LineStep α
  | .next rem item => .next (lower rem) (conv item)
  | .stop => .stop
  | .abort => .abort

/-- Lowercasing on the text payload of a `Label`. -/
def lowerLabel (l : Label) : Label := ⟨l.id, lower l.name⟩

/-- Lowercasing on the raw token of an unrecognized port type. -/
def lowerHWPT : HardwarePortType → HardwarePortType
  | .Other s => .Other (lower s)
  | x => x

/-- Lowercasing on the text payload of a `HardwarePort`. -/
def lowerHW (p : HardwarePort) : HardwarePort := ⟨p.id, lowerHWPT p.port_type⟩

/-- Lowercasing on an unrecognized key/value pair. -/
def lowerKV (kv : UnknownKVPair) : UnknownKVPair := ⟨lower kv.key, lower kv.value⟩

/-- Lowercasing on the text payload of a `DeviceInfo`. -/
def lowerDI (di : DeviceInfo) : DeviceInfo :=
  { present := di.present
    model_name := di.model_name.map lower
    friendly_name := di.friendly_name.map lower
    unique_id := di.unique_id.map lower
    video_inputs := di.video_inputs
    video_processing_units := di.video_processing_units
    video_outputs := di.video_outputs
    video_monitoring_outputs := di.video_monitoring_outputs
    serial_ports := di.serial_ports
    unknown_fields := di.unknown_fields.map (List.map lowerKV) }

/-- Lowercasing on every free-text payload of a message: label names,
version text, device strings, alarm and configuration text, raw tokens
of unrecognized port types, and the raw bytes of unknown blocks; ids,
counts and enumerated fields are untouched. -/
def lowerMsg : VideohubMessage → VideohubMessage
  | .Preamble ver => .Preamble (lower ver)
  | .DeviceInfo di => .DeviceInfo (lowerDI di)
  | .InputLabels v => .InputLabels (v.map lowerLabel)
  | .OutputLabels v => .OutputLabels (v.map lowerLabel)
  | .MonitorOutputLabels v => .MonitorOutputLabels (v.map lowerLabel)
  | .SerialPortLabels v => .SerialPortLabels (v.map lowerLabel)
  | .FrameLabels v => .FrameLabels (v.map lowerLabel)
  | .VideoOutputRouting v => .VideoOutputRouting v
  | .VideoMonitoringOutputRouting v => .VideoMonitoringOutputRouting v
  | .SerialPortRouting v => .SerialPortRouting v
  | .ProcessingUnitRouting v => .ProcessingUnitRouting v
  | .FrameBufferRouting v => .FrameBufferRouting v
  | .VideoOutputLocks v => .VideoOutputLocks v
  | .MonitoringOutputLocks v => .MonitoringOutputLocks v
  | .SerialPortLocks v => .SerialPortLocks v
  | .ProcessingUnitLocks v => .ProcessingUnitLocks v
  | .FrameBufferLocks v => .FrameBufferLocks v
  | .VideoInputStatus v => .VideoInputStatus (v.map lowerHW)
  | .VideoOutputStatus v => .VideoOutputStatus (v.map lowerHW)
  | .SerialPortStatus v => .SerialPortStatus (v.map lowerHW)
  | .AlarmStatus v => .AlarmStatus (v.map fun a => ⟨lower a.name, lower a.status⟩)
  | .Configuration v => .Configuration (v.map fun s => ⟨lower s.setting, lower s.value⟩)
  | .ACK => .ACK
  | .NAK => .NAK
  | .Ping => .Ping
  | .EndPrelude => .EndPrelude
  | .UnknownMessage h body => .UnknownMessage (lower h) (lower body)

theorem labelLine_lower (i : List Nat) :
    labelLine (lower i) = lowerLS lowerLabel (labelLine i) := by
  unfold labelLine
  rw [parseU32_lower]
  rcases h1 : parseU32 i with ⟨i1, n⟩ | _ | _
  rotate_left
  · rfl
  · rfl
  simp only [lowerPRN, PResult.bind]
  rw [show space1 (lower i1) = lowerPR (space1 i1) from takeWhile1S_lower isSpTab_lower i1]
  rcases h2 : space1 i1 with ⟨i2, s⟩ | _ | _
  rotate_left
  · rfl
  · rfl
  simp only [lowerPR, PResult.bind]
  rw [show takeUntilNewline (lower i2) = lowerPR (takeUntilNewline i2) from
    takeWhile1S_lower notNL_lower i2]
  rcases h3 : takeUntilNewline i2 with ⟨i3, nm⟩ | _ | _
  rotate_left
  · rfl
  · rfl
  simp only [lowerPR, PResult.bind]
  rw [anyNewline_lower]
  rcases h4 : anyNewline i3 with ⟨i4, nl⟩ | _ | _
  rotate_left
  · rfl
  · rfl
  simp only [lowerPR, PResult.bind]
  rw [trimAscii_lower]
  rfl

theorem routeLine_lower (i : List Nat) :
    routeLine (lower i) = lowerLS id (routeLine i) := by
  unfold routeLine
  rw [parseU32_lower]
  rcases h1 : parseU32 i with ⟨i1, t⟩ | _ | _
  rotate_left
  · rfl
  · rfl
  simp only [lowerPRN, PResult.bind]
  rw [show space1 (lower i1) = lowerPR (space1 i1) from takeWhile1S_lower isSpTab_lower i1]
  rcases h2 : space1 i1 with ⟨i2, s⟩ | _ | _
  rotate_left
  · rfl
  · rfl
  simp only [lowerPR, PResult.bind]
  rw [parseU32_lower]
  rcases h3 : parseU32 i2 with ⟨i3, f⟩ | _ | _
  rotate_left
  · rfl
  · rfl
  simp only [lowerPRN, PResult.bind]
  rw [anyNewline_lower]
  rcases h4 : anyNewline i3 with ⟨i4, nl⟩ | _ | _
  rotate_left
  · rfl
  · rfl
  rfl

theorem lockStateOf_lower (s : List Nat) : lockStateOf (lower s) = lockStateOf s := by
  rcases s with _ | ⟨c, rest⟩
  · rfl
  rcases rest with _ | ⟨d, r⟩
  · show lockStateOf [lowerByte c] = lockStateOf [c]
    simp only [lockStateOf, List.cons.injEq, and_true]
    unfold lowerByte
    split_ifs <;> first | rfl | omega
  · show lockStateOf (lowerByte c :: lowerByte d :: lower r) = lockStateOf (c :: d :: r)
    simp [lockStateOf]

theorem lockLine_lower (i : List Nat) :
    lockLine (lower i) = lowerLS id (lockLine i) := by
  unfold lockLine
  rw [parseU32_lower]
  rcases h1 : parseU32 i with ⟨i1, n⟩ | _ | _
  rotate_left
  · rfl
  · rfl
  simp only [lowerPRN, PResult.bind]
  rw [show space1 (lower i1) = lowerPR (space1 i1) from takeWhile1S_lower isSpTab_lower i1]
  rcases h2 : space1 i1 with ⟨i2, s⟩ | _ | _
  rotate_left
  · rfl
  · rfl
  simp only [lowerPR, PResult.bind]
  rw [show takeUntilNewline (lower i2) = lowerPR (takeUntilNewline i2) from
    takeWhile1S_lower notNL_lower i2]
  rcases h3 : takeUntilNewline i2 with ⟨i3, st⟩ | _ | _
  rotate_left
  · rfl
  · rfl
  simp only [lowerPR, PResult.bind]
  rw [anyNewline_lower]
  rcases h4 : anyNewline i3 with ⟨i4, nl⟩ | _ | _
  rotate_left
  · rfl
  · rfl
  simp only [lowerPR, PResult.bind]
  rw [trimAsciiEnd_lower, lockStateOf_lower]
  rcases lockStateOf (trimAsciiEnd st) with _ | ls
  · rfl
  · rfl

theorem portTypeOf_lower (tp : List Nat) :
    portTypeOf (lower tp) = lowerHWPT (portTypeOf tp) := by
  unfold portTypeOf
  rw [lower_idem]
  split_ifs <;> rfl

theorem hwLine_lower (i : List Nat) :
    hwLine (lower i) = lowerLS lowerHW (hwLine i) := by
  unfold hwLine
  rw [parseU32_lower]
  rcases h1 : parseU32 i with ⟨i1, n⟩ | _ | _
  rotate_left
  · rfl
  · rfl
  simp only [lowerPRN, PResult.bind]
  rw [show space1 (lower i1) = lowerPR (space1 i1) from takeWhile1S_lower isSpTab_lower i1]
  rcases h2 : space1 i1 with ⟨i2, s⟩ | _ | _
  rotate_left
  · rfl
  · rfl
  simp only [lowerPR, PResult.bind]
  rw [show takeUntilNewline (lower i2) = lowerPR (takeUntilNewline i2) from
    takeWhile1S_lower notNL_lower i2]
  rcases h3 : takeUntilNewline i2 with ⟨i3, tp⟩ | _ | _
  rotate_left
  · rfl
  · rfl
  simp only [lowerPR, PResult.bind]
  rw [anyNewline_lower]
  rcases h4 : anyNewline i3 with ⟨i4, nl⟩ | _ | _
  rotate_left
  · rfl
  · rfl
  simp only [lowerPR, PResult.bind]
  rw [trimAsciiEnd_lower, portTypeOf_lower]
  rfl

theorem kvLine_lower (i : List Nat) :
    kvLine (lower i) = lowerLS (fun kv => (lower kv.1, lower kv.2)) (kvLine i) := by
  unfold kvLine
  rw [parseKVLine_lower]
  rcases parseKVLine i with ⟨rem, kv⟩ | _ | _
  · rfl
  · rfl
  · rfl

theorem lower_isEmpty (l : List Nat) : (lower l).isEmpty = l.isEmpty := by
  cases l with
  | nil => rfl
  | cons c t => rfl

theorem fieldU32_lower (v : List Nat) : fieldU32 (lower v) = fieldU32 v := by
  unfold fieldU32
  rw [takeWhile_lower isDigit_lower, lower_of_digits fun c hc => List.mem_takeWhile_imp hc]

theorem deviceFieldOk_lower {k v : List Nat} (h : deviceFieldOk k v = true) :
    deviceFieldOk (lower k) (lower v) = true := by
  unfold deviceFieldOk at h ⊢
  rw [lower_idem]
  by_cases h1 : lower k = bytes ("device present")
  · rw [if_pos h1] at h ⊢
    have hv : lower v = v := by
      rcases Bool.or_eq_true_iff.mp h with h2 | h2
      · rcases Bool.or_eq_true_iff.mp h2 with h3 | h3
        · rw [of_decide_eq_true h3]; rfl
        · rw [of_decide_eq_true h3]; rfl
      · rw [of_decide_eq_true h2]; rfl
    rw [hv]
    exact h
  · rw [if_neg h1] at h ⊢
    by_cases h2 : lower k = bytes ("video inputs") ∨ lower k = bytes ("video processing units")
        ∨ lower k = bytes ("video outputs") ∨ lower k = bytes ("video monitoring outputs")
        ∨ lower k = bytes ("serial ports")
    · rw [if_pos h2] at h ⊢
      rw [takeWhile_lower isDigit_lower, lower_isEmpty, fieldU32_lower]
      exact h
    · rw [if_neg h2]

theorem deviceLine_next {i rem : List Nat} {kv : List Nat × List Nat}
    (h : deviceLine i = .next rem kv) :
    deviceLine (lower i) = .next (lower rem) (lower kv.1, lower kv.2) := by
  unfold deviceLine at h ⊢
  rw [parseKVLine_lower]
  rcases hk : parseKVLine i with ⟨r, p⟩ | _ | _ <;> rw [hk] at h
  · replace h : (if deviceFieldOk p.1 p.2 = true then LineStep.next r p
        else LineStep.abort) = LineStep.next rem kv := h
    show (if deviceFieldOk (lower p.1) (lower p.2) = true then
        LineStep.next (lower r) (lower p.1, lower p.2) else LineStep.abort)
      = LineStep.next (lower rem) (lower kv.1, lower kv.2)
    by_cases hok : deviceFieldOk p.1 p.2 = true
    · rw [if_pos hok] at h
      injection h with h1 h2
      subst h1
      subst h2
      rw [if_pos (deviceFieldOk_lower hok)]
    · rw [if_neg hok] at h
      cases h
  · cases h
  · cases h

theorem deviceLine_stop {i : List Nat} (h : deviceLine i = .stop) :
    deviceLine (lower i) = .stop := by
  unfold deviceLine at h ⊢
  rw [parseKVLine_lower]
  rcases hk : parseKVLine i with ⟨r, p⟩ | _ | _ <;> rw [hk] at h
  · replace h : (if deviceFieldOk p.1 p.2 = true then LineStep.next r p
        else LineStep.abort) = LineStep.stop := h
    by_cases hok : deviceFieldOk p.1 p.2 = true
    · rw [if_pos hok] at h
      cases h
    · rw [if_neg hok] at h
      cases h
  · rfl
  · rfl

theorem deviceLine_next_ok {i rem : List Nat} {kv : List Nat × List Nat}
    (h : deviceLine i = .next rem kv) : deviceFieldOk kv.1 kv.2 = true := by
  unfold deviceLine at h
  rcases hk : parseKVLine i with ⟨r, p⟩ | _ | _ <;> rw [hk] at h
  · replace h : (if deviceFieldOk p.1 p.2 = true then LineStep.next r p
        else LineStep.abort) = LineStep.next rem kv := h
    by_cases hok : deviceFieldOk p.1 p.2 = true
    · rw [if_pos hok] at h
      injection h with h1 h2
      subst h2
      exact hok
    · rw [if_neg hok] at h
      cases h
  · cases h
  · cases h

theorem bodyLoop_lower {α : Type} {line : List Nat → LineStep α} {conv : α → α}
    (hnext : ∀ i rem item, line i = .next rem item →
      line (lower i) = .next (lower rem) (conv item))
    (hstop : ∀ i, line i = .stop → line (lower i) = .stop) :
    ∀ (f : Nat) (i : List Nat) (acc : List α) (rem : List Nat) (out : List α),
      bodyLoop line f i acc = .done rem out →
      bodyLoop line f (lower i) (acc.map conv) = .done (lower rem) (out.map conv) := by
  intro f
  induction f with
  | zero =>
    intro i acc rem out h
    injection h with h1 h2
    subst h1
    subst h2
    rfl
  | succ f ih =>
    intro i acc rem out h
    unfold bodyLoop at h ⊢
    rcases hl : line i with ⟨r, item⟩ | _ | _ <;> rw [hl] at h
    · rw [hnext i r item hl]
      have := ih r (acc ++ [item]) rem out h
      rw [List.map_append] at this
      exact this
    · rw [hstop i hl]
      injection h with h1 h2
      subst h1
      subst h2
      rfl
    · cases h

theorem runBody_lower {α : Type} {line : List Nat → LineStep α} {conv : α → α}
    (hnext : ∀ i rem item, line i = .next rem item →
      line (lower i) = .next (lower rem) (conv item))
    (hstop : ∀ i, line i = .stop → line (lower i) = .stop)
    {i rem : List Nat} {out : List α} (h : runBody line i = .done rem out) :
    runBody line (lower i) = .done (lower rem) (out.map conv) := by
  unfold runBody at h ⊢
  rw [lower_length]
  exact bodyLoop_lower hnext hstop (i.length + 1) i [] rem out h

theorem bodyLoop_items {α : Type} {line : List Nat → LineStep α} (P : α → Prop)
    (hP : ∀ i rem item, line i = .next rem item → P item) :
    ∀ (f : Nat) (i : List Nat) (acc : List α) (rem : List Nat) (out : List α),
      (∀ a ∈ acc, P a) → bodyLoop line f i acc = .done rem out → ∀ a ∈ out, P a := by
  intro f
  induction f with
  | zero =>
    intro i acc rem out hacc h
    injection h with h1 h2
    subst h2
    exact hacc
  | succ f ih =>
    intro i acc rem out hacc h
    unfold bodyLoop at h
    rcases hl : line i with ⟨r, item⟩ | _ | _ <;> rw [hl] at h
    · refine ih r (acc ++ [item]) rem out ?_ h
      intro a ha
      rcases List.mem_append.mp ha with ha1 | ha1
      · exact hacc a ha1
      · rw [List.mem_singleton.mp ha1]
        exact hP i r item hl
    · injection h with h1 h2
      subst h2
      exact hacc
    · cases h

theorem applyDF_eq1 (di : DeviceInfo) (k v : List Nat)
    (h1 : lower k = bytes ("device present")) :
    applyDeviceField di (k, v) =
      { di with present := some (if v = bytes ("true") then .Yes
                                 else if v = bytes ("false") then .No
                                 else .NeedsUpdate) } := by
  simp only [applyDeviceField]
  rw [if_pos h1]

theorem applyDF_eq2 (di : DeviceInfo) (k v : List Nat)
    (h1 : ¬ lower k = bytes ("device present"))
    (h2 : lower k = bytes ("model name")) :
    applyDeviceField di (k, v) = { di with model_name := some v } := by
  simp only [applyDeviceField]
  rw [if_neg h1, if_pos h2]

theorem applyDF_eq3 (di : DeviceInfo) (k v : List Nat)
    (h1 : ¬ lower k = bytes ("device present"))
    (h2 : ¬ lower k = bytes ("model name"))
    (h3 : lower k = bytes ("friendly name")) :
    applyDeviceField di (k, v) = { di with unique_id := some v } := by
  simp only [applyDeviceField]
  rw [if_neg h1, if_neg h2, if_pos h3]

theorem applyDF_eq4 (di : DeviceInfo) (k v : List Nat)
    (h1 : ¬ lower k = bytes ("device present"))
    (h2 : ¬ lower k = bytes ("model name"))
    (h3 : ¬ lower k = bytes ("friendly name"))
    (h4 : lower k = bytes ("unique id")) :
    applyDeviceField di (k, v) = { di with unique_id := some v } := by
  simp only [applyDeviceField]
  rw [if_neg h1, if_neg h2, if_neg h3, if_pos h4]

theorem applyDF_eq5 (di : DeviceInfo) (k v : List Nat)
    (h1 : ¬ lower k = bytes ("device present"))
    (h2 : ¬ lower k = bytes ("model name"))
    (h3 : ¬ lower k = bytes ("friendly name"))
    (h4 : ¬ lower k = bytes ("unique id"))
    (h5 : lower k = bytes ("video inputs")) :
    applyDeviceField di (k, v) = { di with video_inputs := some (fieldU32 v) } := by
  simp only [applyDeviceField]
  rw [if_neg h1, if_neg h2, if_neg h3, if_neg h4, if_pos h5]

theorem applyDF_eq6 (di : DeviceInfo) (k v : List Nat)
    (h1 : ¬ lower k = bytes ("device present"))
    (h2 : ¬ lower k = bytes ("model name"))
    (h3 : ¬ lower k = bytes ("friendly name"))
    (h4 : ¬ lower k = bytes ("unique id"))
    (h5 : ¬ lower k = bytes ("video inputs"))
    (h6 : lower k = bytes ("video processing units")) :
    applyDeviceField di (k, v) = { di with video_processing_units := some (fieldU32 v) } := by
  simp only [applyDeviceField]
  rw [if_neg h1, if_neg h2, if_neg h3, if_neg h4, if_neg h5, if_pos h6]

theorem applyDF_eq7 (di : DeviceInfo) (k v : List Nat)
    (h1 : ¬ lower k = bytes ("device present"))
    (h2 : ¬ lower k = bytes ("model name"))
    (h3 : ¬ lower k = bytes ("friendly name"))
    (h4 : ¬ lower k = bytes ("unique id"))
    (h5 : ¬ lower k = bytes ("video inputs"))
    (h6 : ¬ lower k = bytes ("video processing units"))
    (h7 : lower k = bytes ("video outputs")) :
    applyDeviceField di (k, v) = { di with video_outputs := some (fieldU32 v) } := by
  simp only [applyDeviceField]
  rw [if_neg h1, if_neg h2, if_neg h3, if_neg h4, if_neg h5, if_neg h6, if_pos h7]

theorem applyDF_eq8 (di : DeviceInfo) (k v : List Nat)
    (h1 : ¬ lower k = bytes ("device present"))
    (h2 : ¬ lower k = bytes ("model name"))
    (h3 : ¬ lower k = bytes ("friendly name"))
    (h4 : ¬ lower k = bytes ("unique id"))
    (h5 : ¬ lower k = bytes ("video inputs"))
    (h6 : ¬ lower k = bytes ("video processing units"))
    (h7 : ¬ lower k = bytes ("video outputs"))
    (h8 : lower k = bytes ("video monitoring outputs")) :
    applyDeviceField di (k, v) = { di with video_monitoring_outputs := some (fieldU32 v) } := by
  simp only [applyDeviceField]
  rw [if_neg h1, if_neg h2, if_neg h3, if_neg h4, if_neg h5, if_neg h6, if_neg h7, if_pos h8]

theorem applyDF_eq9 (di : DeviceInfo) (k v : List Nat)
    (h1 : ¬ lower k = bytes ("device present"))
    (h2 : ¬ lower k = bytes ("model name"))
    (h3 : ¬ lower k = bytes ("friendly name"))
    (h4 : ¬ lower k = bytes ("unique id"))
    (h5 : ¬ lower k = bytes ("video inputs"))
    (h6 : ¬ lower k = bytes ("video processing units"))
    (h7 : ¬ lower k = bytes ("video outputs"))
    (h8 : ¬ lower k = bytes ("video monitoring outputs"))
    (h9 : lower k = bytes ("serial ports")) :
    applyDeviceField di (k, v) = { di with serial_ports := some (fieldU32 v) } := by
  simp only [applyDeviceField]
  rw [if_neg h1, if_neg h2, if_neg h3, if_neg h4, if_neg h5, if_neg h6, if_neg h7, if_neg h8,
    if_pos h9]

theorem applyDF_eq10 (di : DeviceInfo) (k v : List Nat)
    (h1 : ¬ lower k = bytes ("device present"))
    (h2 : ¬ lower k = bytes ("model name"))
    (h3 : ¬ lower k = bytes ("friendly name"))
    (h4 : ¬ lower k = bytes ("unique id"))
    (h5 : ¬ lower k = bytes ("video inputs"))
    (h6 : ¬ lower k = bytes ("video processing units"))
    (h7 : ¬ lower k = bytes ("video outputs"))
    (h8 : ¬ lower k = bytes ("video monitoring outputs"))
    (h9 : ¬ lower k = bytes ("serial ports")) :
    applyDeviceField di (k, v) =
      { di with unknown_fields := some ((di.unknown_fields.getD []) ++ [⟨k, v⟩]) } := by
  simp only [applyDeviceField]
  rw [if_neg h1, if_neg h2, if_neg h3, if_neg h4, if_neg h5, if_neg h6, if_neg h7, if_neg h8,
    if_neg h9]

theorem applyDeviceField_lower (di : DeviceInfo) (k v : List Nat)
    (hok : deviceFieldOk k v = true) :
    applyDeviceField (lowerDI di) (lower k, lower v) = lowerDI (applyDeviceField di (k, v)) := by
  by_cases h1 : lower k = bytes ("device present")
  · have hv : lower v = v := by
      unfold deviceFieldOk at hok
      rw [if_pos h1] at hok
      rcases Bool.or_eq_true_iff.mp hok with h2 | h2
      · rcases Bool.or_eq_true_iff.mp h2 with h3 | h3
        · rw [of_decide_eq_true h3]
          rfl
        · rw [of_decide_eq_true h3]
          rfl
      · rw [of_decide_eq_true h2]
        rfl
    rw [applyDF_eq1 _ _ _ (by rw [lower_idem]; exact h1), applyDF_eq1 _ _ _ h1, hv]
    rfl
  by_cases h2 : lower k = bytes ("model name")
  · rw [applyDF_eq2 _ _ _ (by rw [lower_idem]; exact h1) (by rw [lower_idem]; exact h2),
      applyDF_eq2 _ _ _ h1 h2]
    rfl
  by_cases h3 : lower k = bytes ("friendly name")
  · rw [applyDF_eq3 _ _ _ (by rw [lower_idem]; exact h1) (by rw [lower_idem]; exact h2)
      (by rw [lower_idem]; exact h3), applyDF_eq3 _ _ _ h1 h2 h3]
    rfl
  by_cases h4 : lower k = bytes ("unique id")
  · rw [applyDF_eq4 _ _ _ (by rw [lower_idem]; exact h1) (by rw [lower_idem]; exact h2)
      (by rw [lower_idem]; exact h3) (by rw [lower_idem]; exact h4), applyDF_eq4 _ _ _ h1 h2 h3 h4]
    rfl
  by_cases h5 : lower k = bytes ("video inputs")
  · rw [applyDF_eq5 _ _ _ (by rw [lower_idem]; exact h1) (by rw [lower_idem]; exact h2)
      (by rw [lower_idem]; exact h3) (by rw [lower_idem]; exact h4) (by rw [lower_idem]; exact h5),
      applyDF_eq5 _ _ _ h1 h2 h3 h4 h5, fieldU32_lower]
    rfl
  by_cases h6 : lower k = bytes ("video processing units")
  · rw [applyDF_eq6 _ _ _ (by rw [lower_idem]; exact h1) (by rw [lower_idem]; exact h2)
      (by rw [lower_idem]; exact h3) (by rw [lower_idem]; exact h4) (by rw [lower_idem]; exact h5)
      (by rw [lower_idem]; exact h6), applyDF_eq6 _ _ _ h1 h2 h3 h4 h5 h6, fieldU32_lower]
    rfl
  by_cases h7 : lower k = bytes ("video outputs")
  · rw [applyDF_eq7 _ _ _ (by rw [lower_idem]; exact h1) (by rw [lower_idem]; exact h2)
      (by rw [lower_idem]; exact h3) (by rw [lower_idem]; exact h4) (by rw [lower_idem]; exact h5)
      (by rw [lower_idem]; exact h6) (by rw [lower_idem]; exact h7),
      applyDF_eq7 _ _ _ h1 h2 h3 h4 h5 h6 h7, fieldU32_lower]
    rfl
  by_cases h8 : lower k = bytes ("video monitoring outputs")
  · rw [applyDF_eq8 _ _ _ (by rw [lower_idem]; exact h1) (by rw [lower_idem]; exact h2)
      (by rw [lower_idem]; exact h3) (by rw [lower_idem]; exact h4) (by rw [lower_idem]; exact h5)
      (by rw [lower_idem]; exact h6) (by rw [lower_idem]; exact h7) (by rw [lower_idem]; exact h8),
      applyDF_eq8 _ _ _ h1 h2 h3 h4 h5 h6 h7 h8, fieldU32_lower]
    rfl
  by_cases h9 : lower k = bytes ("serial ports")
  · rw [applyDF_eq9 _ _ _ (by rw [lower_idem]; exact h1) (by rw [lower_idem]; exact h2)
      (by rw [lower_idem]; exact h3) (by rw [lower_idem]; exact h4) (by rw [lower_idem]; exact h5)
      (by rw [lower_idem]; exact h6) (by rw [lower_idem]; exact h7) (by rw [lower_idem]; exact h8)
      (by rw [lower_idem]; exact h9), applyDF_eq9 _ _ _ h1 h2 h3 h4 h5 h6 h7 h8 h9, fieldU32_lower]
    rfl
  · rw [applyDF_eq10 _ _ _ (by rw [lower_idem]; exact h1) (by rw [lower_idem]; exact h2)
      (by rw [lower_idem]; exact h3) (by rw [lower_idem]; exact h4) (by rw [lower_idem]; exact h5)
      (by rw [lower_idem]; exact h6) (by rw [lower_idem]; exact h7) (by rw [lower_idem]; exact h8)
      (by rw [lower_idem]; exact h9), applyDF_eq10 _ _ _ h1 h2 h3 h4 h5 h6 h7 h8 h9]
    cases hu : di.unknown_fields <;> simp [lowerDI, hu, lowerKV]

theorem foldl_applyDeviceField_lower :
    ∀ (kvs : List (List Nat × List Nat)) (di : DeviceInfo),
      (∀ kv ∈ kvs, deviceFieldOk kv.1 kv.2 = true) →
      (kvs.map fun kv => (lower kv.1, lower kv.2)).foldl applyDeviceField (lowerDI di)
        = lowerDI (kvs.foldl applyDeviceField di) := by
  intro kvs
  induction kvs with
  | nil =>
    intro di _
    rfl
  | cons kv rest ih =>
    intro di hall
    rw [List.map_cons, List.foldl_cons, List.foldl_cons,
      applyDeviceField_lower di kv.1 kv.2 (hall kv (List.mem_cons_self kv rest))]
    exact ih (applyDeviceField di kv) fun p hp => hall p (List.mem_cons_of_mem kv hp)

/-- Map a message parser result through ASCII lowercasing of the
remainder and of the message payload. -/
def lowerPRM (r : PResult VideohubMessage) : PResult VideohubMessage :=
  match r with
  | .done rem m => .done (lower rem) (lowerMsg m)
  | .incomplete => .incomplete
  | .error => .error

theorem parseDeviceBody_lower {i rem : List Nat} {m : VideohubMessage}
    (h : parseDeviceBody i = .done rem m) :
    parseDeviceBody (lower i) = .done (lower rem) (lowerMsg m) := by
  unfold parseDeviceBody at h ⊢
  rcases hb : runBody deviceLine i with ⟨r, kvs⟩ | _ | _ <;> rw [hb] at h
  · simp only [PResult.bind] at h
    injection h with h1 h2
    subst h1
    rw [runBody_lower (fun i rem item hx => deviceLine_next hx) (fun i hx => deviceLine_stop hx) hb]
    simp only [PResult.bind]
    have hall : ∀ kv ∈ kvs, deviceFieldOk kv.1 kv.2 = true :=
      bodyLoop_items (fun kv => deviceFieldOk kv.1 kv.2 = true)
        (fun i rem item hx => deviceLine_next_ok hx) (i.length + 1) i [] r kvs
        (fun a ha => absurd ha (List.not_mem_nil a)) hb
    subst h2
    rw [show lowerMsg (VideohubMessage.DeviceInfo (List.foldl applyDeviceField {} kvs))
        = VideohubMessage.DeviceInfo (lowerDI (List.foldl applyDeviceField {} kvs)) from rfl,
      ← foldl_applyDeviceField_lower kvs {} hall]
    rfl
  · cases h
  · cases h

theorem parsePreambleBody_lower (i : List Nat) :
    parsePreambleBody (lower i) = lowerPRM (parsePreambleBody i) := by
  unfold parsePreambleBody
  rw [tagNoCaseS_lower]
  rcases h1 : tagNoCaseS (bytes ("Version")) i with ⟨i1, t⟩ | _ | _
  rotate_left
  · rfl
  · rfl
  simp only [lowerPR, PResult.bind]
  rw [tagS_colon_lower]
  rcases h2 : tagS [58] i1 with ⟨i2, c⟩ | _ | _
  rotate_left
  · rfl
  · rfl
  simp only [lowerPR, PResult.bind]
  rw [show takeUntilNewline (lower i2) = lowerPR (takeUntilNewline i2) from
    takeWhile1S_lower notNL_lower i2]
  rcases h3 : takeUntilNewline i2 with ⟨i3, ver⟩ | _ | _
  rotate_left
  · rfl
  · rfl
  simp only [lowerPR, PResult.bind]
  rw [anyNewline_lower]
  rcases h4 : anyNewline i3 with ⟨i4, nl⟩ | _ | _
  rotate_left
  · rfl
  · rfl
  simp only [lowerPR, PResult.bind]
  rw [trimAscii_lower]
  rfl

theorem armLower {α : Type} {line : List Nat → LineStep α} {conv : α → α}
    (hnext : ∀ i rem item, line i = LineStep.next rem item →
      line (lower i) = LineStep.next (lower rem) (conv item))
    (hstop : ∀ i, line i = LineStep.stop → line (lower i) = LineStep.stop)
    (wrap : List α → VideohubMessage)
    (hwrap : ∀ v, lowerMsg (wrap v) = wrap (List.map conv v))
    {body r : List Nat} {m : VideohubMessage}
    (h : (runBody line body).bind (fun r v => PResult.done r (wrap v)) = PResult.done r m) :
    (runBody line (lower body)).bind (fun r v => PResult.done r (wrap v))
      = PResult.done (lower r) (lowerMsg m) := by
  rcases hb : runBody line body with ⟨rem, v⟩ | _ | _ <;> rw [hb] at h
  · simp only [PResult.bind] at h
    injection h with h1 h2
    subst h1
    rw [runBody_lower hnext hstop hb]
    simp only [PResult.bind]
    rw [← h2, hwrap]
  · cases h
  · cases h

theorem alarm_wrap_lower (v : List (List Nat × List Nat)) :
    lowerMsg (.AlarmStatus (v.map alarmOf))
      = .AlarmStatus ((List.map (fun kv => (lower kv.1, lower kv.2)) v).map alarmOf) := by
  show VideohubMessage.AlarmStatus _ = VideohubMessage.AlarmStatus _
  rw [List.map_map, List.map_map]
  refine congrArg _ (List.map_congr_left fun kv _ => ?_)
  show Alarm.mk (lower (trimAscii kv.1)) (lower (trimAscii kv.2))
    = Alarm.mk (trimAscii (lower kv.1)) (trimAscii (lower kv.2))
  rw [trimAscii_lower, trimAscii_lower]

theorem setting_wrap_lower (v : List (List Nat × List Nat)) :
    lowerMsg (.Configuration (v.map settingOf))
      = .Configuration ((List.map (fun kv => (lower kv.1, lower kv.2)) v).map settingOf) := by
  show VideohubMessage.Configuration _ = VideohubMessage.Configuration _
  rw [List.map_map, List.map_map]
  refine congrArg _ (List.map_congr_left fun kv _ => ?_)
  show Setting.mk (lower (trimAscii kv.1)) (lower (trimAscii kv.2))
    = Setting.mk (trimAscii (lower kv.1)) (trimAscii (lower kv.2))
  rw [trimAscii_lower, trimAscii_lower]

set_option maxHeartbeats 2000000 in
theorem dispatchBody_lower {sh th body r : List Nat} {m : VideohubMessage}
    (h : dispatchBody sh th body = .done r m) :
    dispatchBody sh (lower th) (lower body) = .done (lower r) (lowerMsg m) := by
  unfold dispatchBody at h ⊢
  by_cases c1 : sh = bytes ("PROTOCOL PREAMBLE:")
  · rw [if_pos c1] at h
    rw [if_pos c1]
    rw [parsePreambleBody_lower, h]
    rfl
  rw [if_neg c1] at h
  rw [if_neg c1]
  by_cases c2 : sh = bytes ("VIDEOHUB DEVICE:")
  · rw [if_pos c2] at h
    rw [if_pos c2]
    exact parseDeviceBody_lower h
  rw [if_neg c2] at h
  rw [if_neg c2]
  by_cases c3 : sh = bytes ("INPUT LABELS:")
  · rw [if_pos c3] at h
    rw [if_pos c3]
    exact armLower (fun i rem item hx => by rw [labelLine_lower, hx]; rfl)
      (fun i hx => by rw [labelLine_lower, hx]; rfl) _ (fun v => rfl) h
  rw [if_neg c3] at h
  rw [if_neg c3]
  by_cases c4 : sh = bytes ("OUTPUT LABELS:")
  · rw [if_pos c4] at h
    rw [if_pos c4]
    exact armLower (fun i rem item hx => by rw [labelLine_lower, hx]; rfl)
      (fun i hx => by rw [labelLine_lower, hx]; rfl) _ (fun v => rfl) h
  rw [if_neg c4] at h
  rw [if_neg c4]
  by_cases c5 : sh = bytes ("MONITOR OUTPUT LABELS:")
  · rw [if_pos c5] at h
    rw [if_pos c5]
    exact armLower (fun i rem item hx => by rw [labelLine_lower, hx]; rfl)
      (fun i hx => by rw [labelLine_lower, hx]; rfl) _ (fun v => rfl) h
  rw [if_neg c5] at h
  rw [if_neg c5]
  by_cases c6 : sh = bytes ("SERIAL PORT LABELS:")
  · rw [if_pos c6] at h
    rw [if_pos c6]
    exact armLower (fun i rem item hx => by rw [labelLine_lower, hx]; rfl)
      (fun i hx => by rw [labelLine_lower, hx]; rfl) _ (fun v => rfl) h
  rw [if_neg c6] at h
  rw [if_neg c6]
  by_cases c7 : sh = bytes ("FRAME LABELS:")
  · rw [if_pos c7] at h
    rw [if_pos c7]
    exact armLower (fun i rem item hx => by rw [labelLine_lower, hx]; rfl)
      (fun i hx => by rw [labelLine_lower, hx]; rfl) _ (fun v => rfl) h
  rw [if_neg c7] at h
  rw [if_neg c7]
  by_cases c8 : sh = bytes ("VIDEO OUTPUT ROUTING:")
  · rw [if_pos c8] at h
    rw [if_pos c8]
    exact armLower (fun i rem item hx => by rw [routeLine_lower, hx]; rfl)
      (fun i hx => by rw [routeLine_lower, hx]; rfl) _ (fun v => by rw [List.map_id]; rfl) h
  rw [if_neg c8] at h
  rw [if_neg c8]
  by_cases c9 : sh = bytes ("VIDEO MONITORING OUTPUT ROUTING:")
  · rw [if_pos c9] at h
    rw [if_pos c9]
    exact armLower (fun i rem item hx => by rw [routeLine_lower, hx]; rfl)
      (fun i hx => by rw [routeLine_lower, hx]; rfl) _ (fun v => by rw [List.map_id]; rfl) h
  rw [if_neg c9] at h
  rw [if_neg c9]
  by_cases c10 : sh = bytes ("SERIAL PORT ROUTING:")
  · rw [if_pos c10] at h
    rw [if_pos c10]
    exact armLower (fun i rem item hx => by rw [routeLine_lower, hx]; rfl)
      (fun i hx => by rw [routeLine_lower, hx]; rfl) _ (fun v => by rw [List.map_id]; rfl) h
  rw [if_neg c10] at h
  rw [if_neg c10]
  by_cases c11 : sh = bytes ("PROCESSING UNIT ROUTING:")
  · rw [if_pos c11] at h
    rw [if_pos c11]
    exact armLower (fun i rem item hx => by rw [routeLine_lower, hx]; rfl)
      (fun i hx => by rw [routeLine_lower, hx]; rfl) _ (fun v => by rw [List.map_id]; rfl) h
  rw [if_neg c11] at h
  rw [if_neg c11]
  by_cases c12 : sh = bytes ("FRAME BUFFER ROUTING:")
  · rw [if_pos c12] at h
    rw [if_pos c12]
    exact armLower (fun i rem item hx => by rw [routeLine_lower, hx]; rfl)
      (fun i hx => by rw [routeLine_lower, hx]; rfl) _ (fun v => by rw [List.map_id]; rfl) h
  rw [if_neg c12] at h
  rw [if_neg c12]
  by_cases c13 : sh = bytes ("VIDEO OUTPUT LOCKS:")
  · rw [if_pos c13] at h
    rw [if_pos c13]
    exact armLower (fun i rem item hx => by rw [lockLine_lower, hx]; rfl)
      (fun i hx => by rw [lockLine_lower, hx]; rfl) _ (fun v => by rw [List.map_id]; rfl) h
  rw [if_neg c13] at h
  rw [if_neg c13]
  by_cases c14 : sh = bytes ("MONITORING OUTPUT LOCKS:")
  · rw [if_pos c14] at h
    rw [if_pos c14]
    exact armLower (fun i rem item hx => by rw [lockLine_lower, hx]; rfl)
      (fun i hx => by rw [lockLine_lower, hx]; rfl) _ (fun v => by rw [List.map_id]; rfl) h
  rw [if_neg c14] at h
  rw [if_neg c14]
  by_cases c15 : sh = bytes ("SERIAL PORT LOCKS:")
  · rw [if_pos c15] at h
    rw [if_pos c15]
    exact armLower (fun i rem item hx => by rw [lockLine_lower, hx]; rfl)
      (fun i hx => by rw [lockLine_lower, hx]; rfl) _ (fun v => by rw [List.map_id]; rfl) h
  rw [if_neg c15] at h
  rw [if_neg c15]
  by_cases c16 : sh = bytes ("PROCESSING UNIT LOCKS:")
  · rw [if_pos c16] at h
    rw [if_pos c16]
    exact armLower (fun i rem item hx => by rw [lockLine_lower, hx]; rfl)
      (fun i hx => by rw [lockLine_lower, hx]; rfl) _ (fun v => by rw [List.map_id]; rfl) h
  rw [if_neg c16] at h
  rw [if_neg c16]
  by_cases c17 : sh = bytes ("FRAME BUFFER LOCKS:")
  · rw [if_pos c17] at h
    rw [if_pos c17]
    exact armLower (fun i rem item hx => by rw [lockLine_lower, hx]; rfl)
      (fun i hx => by rw [lockLine_lower, hx]; rfl) _ (fun v => by rw [List.map_id]; rfl) h
  rw [if_neg c17] at h
  rw [if_neg c17]
  by_cases c18 : sh = bytes ("VIDEO INPUT STATUS:")
  · rw [if_pos c18] at h
    rw [if_pos c18]
    exact armLower (fun i rem item hx => by rw [hwLine_lower, hx]; rfl)
      (fun i hx => by rw [hwLine_lower, hx]; rfl) _ (fun v => rfl) h
  rw [if_neg c18] at h
  rw [if_neg c18]
  by_cases c19 : sh = bytes ("VIDEO OUTPUT STATUS:")
  · rw [if_pos c19] at h
    rw [if_pos c19]
    exact armLower (fun i rem item hx => by rw [hwLine_lower, hx]; rfl)
      (fun i hx => by rw [hwLine_lower, hx]; rfl) _ (fun v => rfl) h
  rw [if_neg c19] at h
  rw [if_neg c19]
  by_cases c20 : sh = bytes ("SERIAL PORT STATUS:")
  · rw [if_pos c20] at h
    rw [if_pos c20]
    exact armLower (fun i rem item hx => by rw [hwLine_lower, hx]; rfl)
      (fun i hx => by rw [hwLine_lower, hx]; rfl) _ (fun v => rfl) h
  rw [if_neg c20] at h
  rw [if_neg c20]
  by_cases c21 : sh = bytes ("ALARM STATUS:")
  · rw [if_pos c21] at h
    rw [if_pos c21]
    exact armLower (fun i rem item hx => by rw [kvLine_lower, hx]; rfl)
      (fun i hx => by rw [kvLine_lower, hx]; rfl) _ (fun v => alarm_wrap_lower v) h
  rw [if_neg c21] at h
  rw [if_neg c21]
  by_cases c22 : sh = bytes ("CONFIGURATION:")
  · rw [if_pos c22] at h
    rw [if_pos c22]
    exact armLower (fun i rem item hx => by rw [kvLine_lower, hx]; rfl)
      (fun i hx => by rw [kvLine_lower, hx]; rfl) _ (fun v => setting_wrap_lower v) h
  rw [if_neg c22] at h
  rw [if_neg c22]
  by_cases c23 : sh = bytes ("ACK")
  · rw [if_pos c23] at h
    rw [if_pos c23]
    injection h with h1 h2
    subst h1
    subst h2
    rfl
  rw [if_neg c23] at h
  rw [if_neg c23]
  by_cases c24 : sh = bytes ("NAK")
  · rw [if_pos c24] at h
    rw [if_pos c24]
    injection h with h1 h2
    subst h1
    subst h2
    rfl
  rw [if_neg c24] at h
  rw [if_neg c24]
  by_cases c25 : sh = bytes ("PING:")
  · rw [if_pos c25] at h
    rw [if_pos c25]
    injection h with h1 h2
    subst h1
    subst h2
    rfl
  rw [if_neg c25] at h
  rw [if_neg c25]
  by_cases c26 : sh = bytes ("END PRELUDE:")
  · rw [if_pos c26] at h
    rw [if_pos c26]
    injection h with h1 h2
    subst h1
    subst h2
    rfl
  rw [if_neg c26] at h
  rw [if_neg c26]
  injection h with h1 h2
  subst h1
  subst h2
  rfl

theorem parseSingleBlock_lower {b rem : List Nat} {m : VideohubMessage}
    (h : parseSingleBlock b = .done rem m) :
    parseSingleBlock (lower b) = .done (lower rem) (lowerMsg m) := by
  rcases hm : multispace0 b with _ | i0
  · rw [parse_incomplete_at_ms hm] at h
    cases h
  have hml : multispace0 (lower b) = some (lower i0) := by
    rw [multispace0_lower, hm]
    rfl
  rw [parseSingleBlock_eq_of_ms hm] at h
  rw [parseSingleBlock_eq_of_ms hml]
  rw [show takeUntilNewline (lower i0) = lowerPR (takeUntilNewline i0) from
    takeWhile1S_lower notNL_lower i0]
  rcases h1 : takeUntilNewline i0 with ⟨i1, header⟩ | _ | _ <;> rw [h1] at h
  rotate_left
  · cases h
  · cases h
  simp only [lowerPR, PResult.bind] at h ⊢
  rw [anyNewline_lower]
  rcases h2 : anyNewline i1 with ⟨i2, nl⟩ | _ | _ <;> rw [h2] at h
  rotate_left
  · cases h
  · cases h
  simp only [lowerPR, PResult.bind] at h ⊢
  rw [bodyAlt_lower]
  rcases h3 : bodyAlt i2 with ⟨i3, body⟩ | _ | _ <;> rw [h3] at h
  rotate_left
  · cases h
  · cases h
  simp only [lowerPR, PResult.bind] at h ⊢
  rw [trimAsciiEnd_lower, upper_lower]
  unfold dispatchHeader at h ⊢
  rcases hd : dispatchBody (upper (trimAsciiEnd header)) (trimAsciiEnd header) body
      with ⟨r2, m2⟩ | _ | _ <;> rw [hd] at h
  · replace h : PResult.done i3 m2 = PResult.done rem m := h
    injection h with ha hb
    subst ha
    subst hb
    rw [dispatchBody_lower hd]
    rfl
  · cases h
  · cases h

/-- C8 counterexample: the block `INPUT LABELS:\n0 A\n\n` parses to a
label named `A`, while its byte-wise ASCII-lowercased form parses to a
label named `a`; the two Messages differ, so parsing `lowercase(b)`
does not yield the same Message as parsing `b` when free text in the
body contains uppercase letters. -/
theorem c8_counterexample_uppercase_label :
    parseSingleBlock (bytes ("INPUT LABELS:\n0 A\n\n"))
      = .done [] (.InputLabels [⟨0, bytes ("A")⟩])
    ∧ parseSingleBlock (lower (bytes ("INPUT LABELS:\n0 A\n\n")))
      = .done [] (.InputLabels [⟨0, bytes ("a")⟩])
    ∧ VideohubMessage.InputLabels [⟨0, bytes ("A")⟩]
      ≠ VideohubMessage.InputLabels [⟨0, bytes ("a")⟩] := by
  refine ⟨by decide, by decide, by decide⟩

/-- C8: headers and keywords are matched case-insensitively, so for
every input `b` that parses to a Message `m` with remainder `rem`,
the byte-wise ASCII-lowercased input `lowercase(b)` parses to the same
Message up to ASCII-lowercasing of its free-text payload fields
(`lowerMsg m`: label names, version text, device strings, alarm and
configuration text, raw unknown tokens), with remainder
`lowercase(rem)`; all numeric and enumerated fields and the message
variant are identical. -/
theorem c8_lowercase_commutes (b rem : List Nat) (m : VideohubMessage)
    (h : parseSingleBlock b = .done rem m) :
    parseSingleBlock (lower b) = .done (lower rem) (lowerMsg m) :=
  parseSingleBlock_lower h

theorem c8_lowercase_commutes_witness :
    parseSingleBlock (bytes ("INPUT LABELS:\n0 Cam ONE\n\n"))
      = .done [] (.InputLabels [⟨0, bytes ("Cam ONE")⟩])
    ∧ parseSingleBlock (lower (bytes ("INPUT LABELS:\n0 Cam ONE\n\n")))
      = .done (lower []) (lowerMsg (.InputLabels [⟨0, bytes ("Cam ONE")⟩])) :=
  ⟨by decide, c8_lowercase_commutes _ _ _ (by decide)⟩
